import Mathlib

/-!
Shallow embedding of the psypheno web layer (Next.js API handlers over a
read-only SQLite store) together with proofs about its behaviour.

JavaScript strings are modelled as Lean `String`s, but all string
operations the handlers use (`split`, `trim`, `replace`, regex tests,
`parseInt`, …) are re-implemented here over `List Char` so that every
definition is executable and mirrors the ECMAScript semantics of the
source line it embeds.
-/

set_option linter.unusedVariables false

namespace Psypheno

/-! ### JavaScript string primitives -/

/-- `s.split(sep)` for a one-character separator: auxiliary loop over chars. -/
def splitOnCharAux (c : Char) : List Char → List Char → List (List Char)
  | [], cur => [cur.reverse]
  | x :: xs, cur =>
    if x = c then cur.reverse :: splitOnCharAux c xs []
    else splitOnCharAux c xs (x :: cur)

/-- JavaScript `s.split(sep)` for a one-character separator.
On the empty string it returns `[""]`, as in JS. -/
def jsSplit (sep : Char) (s : String) : List String :=
  (splitOnCharAux sep s.toList []).map String.mk

/-- JavaScript `s.trim()`: drop whitespace from both ends. -/
def jsTrim (s : String) : String :=
  String.mk (((s.toList.dropWhile Char.isWhitespace).reverse.dropWhile Char.isWhitespace).reverse)

/-- A character matched by the JavaScript regex class `\w`. -/
def isWordChar (c : Char) : Bool :=
  c.isAlpha || c.isDigit || c = Char.ofNat 95

/-- `sanitizeIdentifier` from the API handlers: succeeds (returning the
identifier unchanged) exactly when `/^\w+$/` matches, otherwise the JS
function throws, modelled as `none`. -/
def sanitizeIdentifier (id : String) : Option String :=
  if id.toList ≠ [] ∧ id.toList.all isWordChar then some id else none

/-- The handlers' idiom `s.split(",").map(s => s.trim()).filter(Boolean)`. -/
def parseCsvList (s : String) : List String :=
  ((jsSplit (Char.ofNat 44) s).map jsTrim).filter (fun x => x ≠ "")

/-- JavaScript `a || b` for strings: `b` when `a` is `null`/`undefined` or empty. -/
def jsOrString (a : Option String) (b : String) : String :=
  match a with
  | none => b
  | some s => if s = "" then b else s

/-- JavaScript `s || null` for strings: `null` when `s` is empty. -/
def jsOrNull (a : Option String) : Option String :=
  match a with
  | none => none
  | some s => if s = "" then none else some s

/-! ### JavaScript numbers with NaN

`parseInt` can return `NaN`, and `Math.max`/`Math.min` propagate it.
A JS number that is either an integer or `NaN` is modelled as
`Option Int` with `none` standing for `NaN`. -/

/-- A JavaScript number that is an integer or `NaN` (`none`). -/
abbrev JsNum := Option Int

/-- Numeric value of a list of decimal digits. -/
def digitsVal (l : List Char) : Nat :=
  l.foldl (fun acc c => acc * 10 + (c.toNat - 48)) 0

/-- JavaScript `parseInt(s, 10)`: skip leading whitespace, optional sign,
then the longest digit prefix; `NaN` when there is no digit. -/
def parseIntJs (s : String) : JsNum :=
  let cs := s.toList.dropWhile Char.isWhitespace
  let (neg, rest) :=
    match cs with
    | c :: cs2 =>
      if c = Char.ofNat 45 then (true, cs2)
      else if c = Char.ofNat 43 then (false, cs2)
      else (false, cs)
    | [] => (false, cs)
  let digits := rest.takeWhile Char.isDigit
  if digits = [] then none
  else some (if neg then -(digitsVal digits : Int) else (digitsVal digits : Int))

/-- JavaScript `Math.max(a, x)` with an integer `a` (NaN propagates). -/
def jsMaxConst (a : Int) (x : JsNum) : JsNum := x.map (fun v => max a v)

/-- JavaScript `Math.min(a, x)` with an integer `a` (NaN propagates). -/
def jsMinConst (a : Int) (x : JsNum) : JsNum := x.map (fun v => min a v)

/-- JavaScript subtraction on possibly-NaN numbers. -/
def jsSubNum (a b : JsNum) : JsNum :=
  match a, b with
  | some x, some y => some (x - y)
  | _, _ => none

/-- JavaScript multiplication on possibly-NaN numbers. -/
def jsMulNum (a b : JsNum) : JsNum :=
  match a, b with
  | some x, some y => some (x * y)
  | _, _ => none

/-- JavaScript addition on possibly-NaN numbers. -/
def jsAddNum (a b : JsNum) : JsNum :=
  match a, b with
  | some x, some y => some (x + y)
  | _, _ => none

/-- `ToIntegerOrInfinity` as used by `Array.prototype.slice`: NaN becomes 0. -/
def jsToIntOrZero : JsNum → Int
  | none => 0
  | some i => i

/-- Clamp a slice index into `[0, len]` as `Array.prototype.slice` does. -/
def jsSliceClamp (len : Nat) (i : Int) : Nat :=
  if i < 0 then ((len : Int) + i).toNat else min i.toNat len

/-- JavaScript `l.slice(s, e)` (elements with indices in `[s, e)`). -/
def jsSlice (l : List α) (s e : JsNum) : List α :=
  (l.take (jsSliceClamp l.length (jsToIntOrZero e))).drop
    (jsSliceClamp l.length (jsToIntOrZero s))

/-! ### A small sort, refining SQL `ORDER BY` / `Array.prototype.sort` -/

/-- Insert into a list sorted by `le`. -/
def insertLe (le : α → α → Bool) (a : α) : List α → List α
  | [] => [a]
  | b :: bs => if le a b then a :: b :: bs else b :: insertLe le a bs

/-- Insertion sort by a boolean comparison; a deterministic refinement of
`ORDER BY` (whose order on ties is unspecified). -/
def sortByLe (le : α → α → Bool) : List α → List α
  | [] => []
  | a :: as => insertLe le a (sortByLe le as)

theorem mem_insertLe (le : α → α → Bool) (a x : α) (l : List α) :
    x ∈ insertLe le a l ↔ x = a ∨ x ∈ l := by
  induction l with
  | nil => simp [insertLe]
  | cons b bs ih =>
    simp only [insertLe]
    split
    · simp
    · simp only [List.mem_cons, ih]
      tauto

theorem mem_sortByLe (le : α → α → Bool) (x : α) (l : List α) :
    x ∈ sortByLe le l ↔ x ∈ l := by
  induction l with
  | nil => simp [sortByLe]
  | cons a as ih => simp [sortByLe, mem_insertLe, ih]

/-! ### Shared query-shape vocabulary

The handlers assemble SQL by string interpolation.  Each interpolated
fragment is modelled structurally (so theorems can speak about the
column a WHERE clause compares) together with a renderer reproducing
the exact string the source builds. -/

/-- JavaScript truthiness of a nullable string. -/
def jsTruthy (o : Option String) : Bool :=
  match o with
  | none => false
  | some s => s ≠ ""

/-- A `LEFT JOIN <table> <alias> ON b.id = <alias>.id` clause. -/
structure JoinClause where
  table : String
  alias0 : String
deriving DecidableEq, Repr

/-- An `<alias>.<column> = ?` comparison in a WHERE clause. -/
structure WhereCond where
  alias0 : String
  column : String
deriving DecidableEq, Repr

/-- Render of a `WhereCond`, exactly as interpolated by the handlers. -/
def condStr (w : WhereCond) : String := w.alias0 ++ "." ++ w.column ++ " = ?"

/-- Render of a `JoinClause`, exactly as interpolated by the handlers. -/
def joinStr (j : JoinClause) : String :=
  " LEFT JOIN " ++ j.table ++ " " ++ j.alias0 ++ " ON b.id = " ++ j.alias0 ++ ".id"

/-- `sanitizeIdentifier` with the thrown `Error` modelled as `Except.error`. -/
def sanitizeE (id : String) : Except String String :=
  match sanitizeIdentifier id with
  | some s => Except.ok s
  | none => Except.error ("Invalid identifier: " ++ id)

/-- JavaScript `Array.prototype.map` over a callback that may throw:
the first thrown error escapes. -/
def mapME (f : α → Except ε β) : List α → Except ε (List β)
  | [] => .ok []
  | a :: as =>
    match f a with
    | .error m => .error m
    | .ok b =>
      match mapME f as with
      | .error m => .error m
      | .ok bs => .ok (b :: bs)

/-- One row of the `data_tables` registry as read by the gene handlers
(`SELECT table_name, gene_columns, display_columns, link_tables FROM data_tables`). -/
structure DataTableRow where
  table_name : String
  gene_columns : String
  display_columns : String
  link_tables : Option String
deriving DecidableEq, Repr

/-! ### The gene-data handler (`src/web/pages/api/gene-data.ts`) -/

/-- A parsed `link_tables` entry in gene-data:
`"gene_col:table_name:is_perturbed:is_target"`. -/
structure GdLink where
  tableName : String
  isPerturbed : Bool
  isTarget : Bool
deriving DecidableEq, Repr

/-- gene-data's per-entry parse: the table name is `parts[1]` when the
entry has at least two colon-separated fields, else `parts[0]`; flags are
field 3 and field 4 compared against `"1"`; the name is sanitized. -/
def gdParseLinkEntryE (entry : String) : Except String GdLink :=
  let parts := jsSplit (Char.ofNat 58) entry
  let tableName := if 2 ≤ parts.length then parts.getD 1 "" else parts.getD 0 ""
  match sanitizeE tableName with
  | .error m => .error m
  | .ok tn =>
    .ok { tableName := tn,
          isPerturbed := decide (parts.getD 2 "" = "1"),
          isTarget := decide (parts.getD 3 "" = "1") }

/-- The query gene-data builds for one `data_tables` row. -/
structure GdQuery where
  baseTable : String
  displayCols : List String
  links : List GdLink
  whereGroups : List (List WhereCond)
  params : List String
deriving DecidableEq, Repr

/-- The `sql` string gene-data assembles for a row, rebuilt fragment by
fragment exactly as the source interpolates it. -/
def gdSql (q : GdQuery) : String :=
  "SELECT " ++ String.intercalate ", " (q.displayCols.map (fun c => "b." ++ c)) ++
    " FROM " ++ q.baseTable ++ " b" ++
    String.join ((q.links.enum).map (fun p =>
      joinStr { table := p.2.tableName, alias0 := "lt" ++ toString p.1 })) ++
    " WHERE " ++
    String.intercalate " AND "
      (q.whereGroups.map (fun g => "(" ++ String.intercalate " OR " (g.map condStr) ++ ")")) ++
    " LIMIT 100"

/-- gene-data's loop body for one `data_tables` row: `Except.error` models
an exception escaping to the outer catch (HTTP 500), `none` models
`continue`, `some q` the query the handler prepares and runs. -/
def gdProcessRow (entrezId : String) (perturbedEntrezId targetEntrezId : Option String)
    (t : DataTableRow) : Except String (Option GdQuery) :=
  match sanitizeE t.table_name with
  | .error m => .error m
  | .ok baseTable =>
  match mapME sanitizeE (parseCsvList t.display_columns) with
  | .error m => .error m
  | .ok displayCols =>
  if displayCols = [] then .ok none else
  match mapME gdParseLinkEntryE (parseCsvList (jsOrString t.link_tables "")) with
  | .error m => .error m
  | .ok parsedLinkTables =>
  if parsedLinkTables = [] then .ok none else
  let whereOrGeneral := (parsedLinkTables.enum).map (fun p =>
    WhereCond.mk ("lt" ++ toString p.1) "entrez_gene")
  let whereOrPerturbed := ((parsedLinkTables.enum).filter (fun p => p.2.isPerturbed)).map (fun p =>
    WhereCond.mk ("lt" ++ toString p.1) "entrez_gene")
  let whereOrTarget := ((parsedLinkTables.enum).filter (fun p => p.2.isTarget)).map (fun p =>
    WhereCond.mk ("lt" ++ toString p.1) "entrez_gene")
  let groups1 : List (List WhereCond) := if 0 < whereOrGeneral.length then [whereOrGeneral] else []
  let params1 : List String := if 0 < whereOrGeneral.length then [entrezId] else []
  let groups2 : List (List WhereCond) :=
    if jsTruthy perturbedEntrezId ∧ 0 < whereOrPerturbed.length then [whereOrPerturbed] else []
  let params2 : List String :=
    if jsTruthy perturbedEntrezId ∧ 0 < whereOrPerturbed.length
    then [perturbedEntrezId.getD ""] else []
  let groups3 : List (List WhereCond) :=
    if jsTruthy targetEntrezId ∧ 0 < whereOrTarget.length then [whereOrTarget] else []
  let params3 : List String :=
    if jsTruthy targetEntrezId ∧ 0 < whereOrTarget.length
    then [targetEntrezId.getD ""] else []
  let whereAndParts := groups1 ++ groups2 ++ groups3
  if whereAndParts = [] then .ok none else
  .ok (some { baseTable := baseTable, displayCols := displayCols,
              links := parsedLinkTables, whereGroups := whereAndParts,
              params := params1 ++ params2 ++ params3 })

/-- An entry of gene-data's `results` array. -/
structure GdResult where
  tableName : String
  displayColumns : List String
  rows : List Nat
deriving DecidableEq, Repr

/-- gene-data's loop over `data_tables`, accumulating `results`.  `exec`
abstracts `db.prepare(sql).all(...)`; `none` models the inner catch
(query failed, table skipped). -/
def gdLoop (exec : GdQuery → Option (List Nat))
    (entrezId : String) (perturbedEntrezId targetEntrezId : Option String) :
    List DataTableRow → List GdResult → Except String (List GdResult)
  | [], acc => .ok acc
  | row :: rest, acc =>
    match gdProcessRow entrezId perturbedEntrezId targetEntrezId row with
    | .error m => .error m
    | .ok none => gdLoop exec entrezId perturbedEntrezId targetEntrezId rest acc
    | .ok (some q) =>
      match exec q with
      | none => gdLoop exec entrezId perturbedEntrezId targetEntrezId rest acc
      | some rows =>
        if 0 < rows.length then
          gdLoop exec entrezId perturbedEntrezId targetEntrezId rest
            (acc ++ [{ tableName := row.table_name, displayColumns := q.displayCols,
                       rows := rows }])
        else gdLoop exec entrezId perturbedEntrezId targetEntrezId rest acc

/-- gene-data's loop over `data_tables`, accumulating `results`, starting
from the empty array. -/
def gdHandlerResults (exec : GdQuery → Option (List Nat))
    (entrezId : String) (perturbedEntrezId targetEntrezId : Option String)
    (tables : List DataTableRow) : Except String (List GdResult) :=
  gdLoop exec entrezId perturbedEntrezId targetEntrezId tables []

/-! ### The gene-pair-data handler (`src/web/pages/api/gene-pair-data.ts`) -/

/-- A parsed `link_tables` entry in gene-pair-data ("new 4-field format"). -/
structure GpLink where
  geneColumn : String
  linkTable : String
  isPerturbed : Bool
  isTarget : Bool
deriving DecidableEq, Repr

/-- gene-pair-data's per-entry parse: the link table name is
`parts[1] ?? parts[0] ?? ""`, sanitized; flags as in gene-data. -/
def gpParseLinkEntryE (entry : String) : Except String GpLink :=
  let parts := jsSplit (Char.ofNat 58) entry
  let raw := match parts.get? 1 with
    | some s => s
    | none => parts.headD ""
  match sanitizeE raw with
  | .error m => .error m
  | .ok tn =>
    .ok { geneColumn := parts.headD "",
          linkTable := tn,
          isPerturbed := decide (parts.getD 2 "" = "1"),
          isTarget := decide (parts.getD 3 "" = "1") }

/-- The pair query gene-pair-data builds for one `data_tables` row. -/
structure GpQuery where
  baseTable : String
  displayCols : List String
  perturbedLT : String
  targetLT : String
  joins : List JoinClause
  conds : List WhereCond
  params : List String
deriving DecidableEq, Repr

/-- The `sql` string gene-pair-data assembles (note: no LIMIT clause, and
an empty conjunction renders as a bare `WHERE `). -/
def gpSql (q : GpQuery) : String :=
  "SELECT " ++ String.intercalate ", " (q.displayCols.map (fun c => "b." ++ c)) ++
    " FROM " ++ q.baseTable ++ " b" ++
    String.join (q.joins.map joinStr) ++
    " WHERE " ++ String.intercalate " AND " (q.conds.map condStr)

/-- gene-pair-data's loop body for one `data_tables` row: `Except.error`
models a thrown sanitization error (HTTP 500), `none` models `continue`,
`some q` the pair query the handler prepares and runs. -/
def gpProcessRow (perturbedEntrezId targetEntrezId : Option String)
    (t : DataTableRow) : Except String (Option GpQuery) :=
  match sanitizeE t.table_name with
  | .error m => .error m
  | .ok baseTable =>
  match mapME sanitizeE (parseCsvList t.display_columns) with
  | .error m => .error m
  | .ok displayCols =>
  if displayCols = [] then .ok none else
  match mapME gpParseLinkEntryE (parseCsvList (jsOrString t.link_tables "")) with
  | .error m => .error m
  | .ok parsed =>
  let perturbedLTs := (parsed.filter (fun p => p.isPerturbed)).map (fun p => p.linkTable)
  let targetLTs := (parsed.filter (fun p => p.isTarget)).map (fun p => p.linkTable)
  if perturbedLTs.length ≠ 1 ∨ targetLTs.length ≠ 1 then .ok none else
  let perturbedLT := perturbedLTs.headD ""
  let targetLT := targetLTs.headD ""
  let joins1 : List JoinClause :=
    if jsTruthy perturbedEntrezId then [{ table := perturbedLT, alias0 := "p" }] else []
  let conds1 : List WhereCond :=
    if jsTruthy perturbedEntrezId then [{ alias0 := "p", column := "central_gene_id" }] else []
  let params1 : List String :=
    if jsTruthy perturbedEntrezId then [perturbedEntrezId.getD ""] else []
  let joins2 : List JoinClause :=
    if jsTruthy targetEntrezId then [{ table := targetLT, alias0 := "t" }] else []
  let conds2 : List WhereCond :=
    if jsTruthy targetEntrezId then [{ alias0 := "t", column := "central_gene_id" }] else []
  let params2 : List String :=
    if jsTruthy targetEntrezId then [targetEntrezId.getD ""] else []
  .ok (some { baseTable := baseTable, displayCols := displayCols,
              perturbedLT := perturbedLT, targetLT := targetLT,
              joins := joins1 ++ joins2, conds := conds1 ++ conds2,
              params := params1 ++ params2 })

/-! ### The link-table-scanning all-genes variant's entry parse
(`src/unnamed/part_003`, first document) -/

/-- The scanning all-genes variant's link-name extraction:
`parts.length >= 2 ? parts[1] : parts[0]` (no sanitization). -/
def agExtractName (entry : String) : String :=
  let parts := jsSplit (Char.ofNat 58) entry
  if 2 ≤ parts.length then parts.getD 1 "" else parts.getD 0 ""

/-- The scanning all-genes variant's full `link_tables` parse:
split on commas, trim, drop empties, extract each name. -/
def agLinkNames (s : String) : List String :=
  (parseCsvList s).map agExtractName

/-! ### Parser lemmas -/

theorem splitOnCharAux_ne_nil (c : Char) (l cur : List Char) :
    splitOnCharAux c l cur ≠ [] := by
  induction l generalizing cur with
  | nil => simp [splitOnCharAux]
  | cons x xs ih =>
    by_cases h : x = c
    · simp [splitOnCharAux, h]
    · simpa [splitOnCharAux, h] using ih (x :: cur)

theorem jsSplit_ne_nil (sep : Char) (s : String) : jsSplit sep s ≠ [] := by
  unfold jsSplit
  intro h
  exact splitOnCharAux_ne_nil sep s.toList [] (by simpa using h)

theorem sanitizeIdentifier_ok_eq {id s : String} (h : sanitizeIdentifier id = some s) :
    s = id := by
  unfold sanitizeIdentifier at h
  split at h
  · exact (Option.some.inj h).symm
  · cases h

theorem sanitizeE_ok_iff {id s : String} :
    sanitizeE id = .ok s ↔ sanitizeIdentifier id = some s := by
  unfold sanitizeE
  cases h : sanitizeIdentifier id <;> simp

theorem sanitizeE_ok_eq {id s : String} (h : sanitizeE id = .ok s) : s = id :=
  sanitizeIdentifier_ok_eq (sanitizeE_ok_iff.mp h)

theorem mapME_ok_id {l l2 : List String} (h : mapME sanitizeE l = .ok l2) : l2 = l := by
  induction l generalizing l2 with
  | nil => simpa [mapME] using h.symm
  | cons a as ih =>
    unfold mapME at h
    cases ha : sanitizeE a with
    | error m => simp [ha] at h
    | ok b =>
      simp only [ha] at h
      cases hr : mapME sanitizeE as with
      | error m => simp [hr] at h
      | ok bs =>
        simp only [hr] at h
        cases h
        rw [sanitizeE_ok_eq ha, ih hr]

theorem mapME_ok_length {f : α → Except ε β} {l : List α} {l2 : List β}
    (h : mapME f l = .ok l2) : l2.length = l.length := by
  induction l generalizing l2 with
  | nil => simp [mapME] at h; simp [← h]
  | cons a as ih =>
    unfold mapME at h
    cases ha : f a with
    | error m => simp [ha] at h
    | ok b =>
      simp only [ha] at h
      cases hr : mapME f as with
      | error m => simp [hr] at h
      | ok bs =>
        simp only [hr] at h
        cases h
        simp [ih hr]

/-- gene-data's inline extraction is exactly `agExtractName`. -/
theorem gdParseLinkEntryE_eq (entry : String) :
    gdParseLinkEntryE entry =
      match sanitizeE (agExtractName entry) with
      | .error m => .error m
      | .ok tn =>
        .ok { tableName := tn,
              isPerturbed := decide ((jsSplit (Char.ofNat 58) entry).getD 2 "" = "1"),
              isTarget := decide ((jsSplit (Char.ofNat 58) entry).getD 3 "" = "1") } := rfl

/-- gene-pair-data's `parts[1] ?? parts[0] ?? ""` extraction agrees with
`agExtractName` on every entry. -/
theorem gpRaw_eq_agExtractName (entry : String) :
    (match (jsSplit (Char.ofNat 58) entry).get? 1 with
     | some s => s
     | none => (jsSplit (Char.ofNat 58) entry).headD "") = agExtractName entry := by
  unfold agExtractName
  cases h : jsSplit (Char.ofNat 58) entry with
  | nil => exact absurd h (jsSplit_ne_nil _ _)
  | cons a t =>
    cases t with
    | nil => simp
    | cons b t2 => simp [List.get?]

theorem gpParseLinkEntryE_eq (entry : String) :
    gpParseLinkEntryE entry =
      match sanitizeE (agExtractName entry) with
      | .error m => .error m
      | .ok tn =>
        .ok { geneColumn := (jsSplit (Char.ofNat 58) entry).headD "",
              linkTable := tn,
              isPerturbed := decide ((jsSplit (Char.ofNat 58) entry).getD 2 "" = "1"),
              isTarget := decide ((jsSplit (Char.ofNat 58) entry).getD 3 "" = "1") } := by
  simp only [gpParseLinkEntryE, agExtractName]
  cases h : jsSplit (Char.ofNat 58) entry with
  | nil => exact absurd h (jsSplit_ne_nil _ _)
  | cons a t =>
    cases t with
    | nil => simp [h]
    | cons b t2 => simp [h, List.get?]

theorem gdParse_ok_tableName {entry : String} {l : GdLink}
    (h : gdParseLinkEntryE entry = .ok l) : l.tableName = agExtractName entry := by
  rw [gdParseLinkEntryE_eq] at h
  cases hs : sanitizeE (agExtractName entry) with
  | error m => rw [hs] at h; cases h
  | ok tn =>
    rw [hs] at h
    cases h
    exact sanitizeE_ok_eq hs

theorem gpParse_ok_linkTable {entry : String} {l : GpLink}
    (h : gpParseLinkEntryE entry = .ok l) : l.linkTable = agExtractName entry := by
  rw [gpParseLinkEntryE_eq] at h
  cases hs : sanitizeE (agExtractName entry) with
  | error m => rw [hs] at h; cases h
  | ok tn =>
    rw [hs] at h
    cases h
    exact sanitizeE_ok_eq hs

/-- Transport a per-element projection along a successful `mapME`. -/
theorem mapME_ok_map {f : α → Except ε β} {g : α → γ} {pr : β → γ}
    (hfg : ∀ a b, f a = .ok b → pr b = g a) :
    ∀ {l : List α} {l2 : List β}, mapME f l = .ok l2 → l2.map pr = l.map g := by
  intro l
  induction l with
  | nil => intro l2 h; simp [mapME] at h; simp [← h]
  | cons a as ih =>
    intro l2 h
    unfold mapME at h
    cases ha : f a with
    | error m => simp [ha] at h
    | ok b =>
      simp only [ha] at h
      cases hr : mapME f as with
      | error m => simp [hr] at h
      | ok bs =>
        simp only [hr] at h
        cases h
        simp [hfg a b ha, ih hr]

/-- Transport a per-element boolean test along a successful `mapME`. -/
theorem mapME_ok_filter_length {f : α → Except ε β} {p : β → Bool} {q : α → Bool}
    (hfg : ∀ a b, f a = .ok b → p b = q a) :
    ∀ {l : List α} {l2 : List β}, mapME f l = .ok l2 →
      (l2.filter p).length = (l.filter q).length := by
  intro l
  induction l with
  | nil => intro l2 h; simp [mapME] at h; simp [h]
  | cons a as ih =>
    intro l2 h
    unfold mapME at h
    cases ha : f a with
    | error m => simp [ha] at h
    | ok b =>
      simp only [ha] at h
      cases hr : mapME f as with
      | error m => simp [hr] at h
      | ok bs =>
        simp only [hr] at h
        cases h
        by_cases hb : p b = true
        · simp [List.filter, hb, ← hfg a b ha, ih hr]
        · simp only [Bool.not_eq_true] at hb
          simp [List.filter, hb, ← hfg a b ha, ih hr]

theorem mapME_gd_names {es : List String} {l : List GdLink}
    (h : mapME gdParseLinkEntryE es = .ok l) :
    l.map (fun x => x.tableName) = es.map agExtractName :=
  mapME_ok_map (fun a b hb => gdParse_ok_tableName hb) h

theorem mapME_gp_names {es : List String} {l : List GpLink}
    (h : mapME gpParseLinkEntryE es = .ok l) :
    l.map (fun x => x.linkTable) = es.map agExtractName :=
  mapME_ok_map (fun a b hb => gpParse_ok_linkTable hb) h

theorem mem_ite_singleton {c : Prop} [Decidable c] {a x : α}
    (h : x ∈ (if c then [a] else [])) : c ∧ x = a := by
  by_cases hc : c
  · rw [if_pos hc] at h
    simp at h
    exact ⟨hc, h⟩
  · rw [if_neg hc] at h
    cases h

theorem jsTruthy_some {o : Option String} (h : jsTruthy o = true) : o = some (o.getD "") := by
  cases o with
  | none => simp [jsTruthy] at h
  | some s => simp

/-- Inversion of gene-data's per-row processing when it builds a query. -/
theorem gdProcessRow_inv {e : String} {p t : Option String} {row : DataTableRow} {q : GdQuery}
    (h : gdProcessRow e p t row = .ok (some q)) :
    sanitizeE row.table_name = .ok q.baseTable ∧
    mapME sanitizeE (parseCsvList row.display_columns) = .ok q.displayCols ∧
    mapME gdParseLinkEntryE (parseCsvList (jsOrString row.link_tables "")) = .ok q.links ∧
    q.displayCols ≠ [] ∧ q.links ≠ [] ∧
    (∀ g ∈ q.whereGroups, ∀ w ∈ g, w.column = "entrez_gene") ∧
    (∀ x ∈ q.params, x = e ∨ p = some x ∨ t = some x) := by
  unfold gdProcessRow at h
  split at h
  · cases h
  rename_i baseTable h1
  split at h
  · cases h
  rename_i displayCols h2
  split at h
  · simp at h
  rename_i hd
  split at h
  · cases h
  rename_i parsedLinkTables h3
  split at h
  · simp at h
  rename_i hl
  simp only [] at h
  split at h
  case isFalse hlen => exact absurd (by simpa [List.length_pos] using hl) hlen
  case isTrue hlen =>
  simp only [List.singleton_append, List.cons_append, List.nil_append] at h
  rw [if_neg (List.cons_ne_nil _ _)] at h
  injection h with h
  injection h with h
  subst h
  refine ⟨h1, h2, h3, hd, hl, ?_, ?_⟩
  · intro g hg w hw
    simp only [List.mem_cons, List.mem_append] at hg
    rcases hg with hg | hg | hg
    · subst hg
      simp only [List.mem_map] at hw
      obtain ⟨pr, _, hpr⟩ := hw
      rw [← hpr]
    · obtain ⟨hc, rfl⟩ := mem_ite_singleton hg
      simp only [List.mem_map] at hw
      obtain ⟨pr, _, hpr⟩ := hw
      rw [← hpr]
    · obtain ⟨hc, rfl⟩ := mem_ite_singleton hg
      simp only [List.mem_map] at hw
      obtain ⟨pr, _, hpr⟩ := hw
      rw [← hpr]
  · intro x hx
    simp only [List.mem_cons, List.mem_append] at hx
    rcases hx with hx | hx | hx
    · exact Or.inl hx
    · obtain ⟨hc, rfl⟩ := mem_ite_singleton hx
      exact Or.inr (Or.inl (jsTruthy_some hc.1))
    · obtain ⟨hc, rfl⟩ := mem_ite_singleton hx
      exact Or.inr (Or.inr (jsTruthy_some hc.1))

/-- Inversion of gene-pair-data's per-row processing when it builds a query. -/
theorem gpProcessRow_inv {p t : Option String} {row : DataTableRow} {q : GpQuery}
    (h : gpProcessRow p t row = .ok (some q)) :
    sanitizeE row.table_name = .ok q.baseTable ∧
    mapME sanitizeE (parseCsvList row.display_columns) = .ok q.displayCols ∧
    q.displayCols ≠ [] ∧
    ∃ parsed, mapME gpParseLinkEntryE (parseCsvList (jsOrString row.link_tables "")) = .ok parsed ∧
      (parsed.filter (fun x => x.isPerturbed)).length = 1 ∧
      (parsed.filter (fun x => x.isTarget)).length = 1 ∧
      q.perturbedLT = ((parsed.filter (fun x => x.isPerturbed)).map (fun x => x.linkTable)).headD "" ∧
      q.targetLT = ((parsed.filter (fun x => x.isTarget)).map (fun x => x.linkTable)).headD "" ∧
      (∀ w ∈ q.conds, w.column = "central_gene_id") ∧
      (∀ x ∈ q.params, p = some x ∨ t = some x) := by
  unfold gpProcessRow at h
  split at h
  · cases h
  rename_i baseTable h1
  split at h
  · cases h
  rename_i displayCols h2
  split at h
  · simp at h
  rename_i hd
  split at h
  · cases h
  rename_i parsed h3
  simp only [] at h
  split at h
  · simp at h
  rename_i hlens
  simp only [not_or, ne_eq, not_not, List.length_map] at hlens
  injection h with h
  injection h with h
  subst h
  refine ⟨h1, h2, hd, parsed, h3, hlens.1, hlens.2, rfl, rfl, ?_, ?_⟩
  · intro w hw
    rcases List.mem_append.mp hw with hw | hw
    · obtain ⟨hc, rfl⟩ := mem_ite_singleton hw
      rfl
    · obtain ⟨hc, rfl⟩ := mem_ite_singleton hw
      rfl
  · intro x hx
    rcases List.mem_append.mp hx with hx | hx
    · obtain ⟨hc, rfl⟩ := mem_ite_singleton hx
      exact Or.inl (jsTruthy_some hc)
    · obtain ⟨hc, rfl⟩ := mem_ite_singleton hx
      exact Or.inr (jsTruthy_some hc)

/-- Characterization: given successful parses, gene-pair-data builds a pair
query for a row exactly when the display columns are nonempty and there is
exactly one perturbed-flagged and exactly one target-flagged link entry. -/
theorem gpProcessRow_some_iff {p t : Option String} {row : DataTableRow}
    {b : String} {d : List String} {parsed : List GpLink}
    (hB : sanitizeE row.table_name = .ok b)
    (hD : mapME sanitizeE (parseCsvList row.display_columns) = .ok d)
    (hL : mapME gpParseLinkEntryE (parseCsvList (jsOrString row.link_tables "")) = .ok parsed) :
    (∃ q, gpProcessRow p t row = .ok (some q)) ↔
      (d ≠ [] ∧ (parsed.filter (fun x => x.isPerturbed)).length = 1 ∧
        (parsed.filter (fun x => x.isTarget)).length = 1) := by
  unfold gpProcessRow
  simp only [hB, hD, hL]
  by_cases hd0 : d = []
  · simp [hd0]
  · simp only [hd0, if_neg, if_false]
    by_cases hc : ((parsed.filter (fun x => x.isPerturbed)).map (fun x => x.linkTable)).length ≠ 1 ∨
        ((parsed.filter (fun x => x.isTarget)).map (fun x => x.linkTable)).length ≠ 1
    · rw [if_pos hc]
      simp only [List.length_map] at hc
      constructor
      · intro hq
        obtain ⟨q, hq⟩ := hq
        cases hq
      · rintro ⟨-, hp1, ht1⟩
        rcases hc with hc | hc
        · exact absurd hp1 hc
        · exact absurd ht1 hc
    · rw [if_neg hc]
      simp only [List.length_map, not_or, ne_eq, not_not] at hc
      simp [hd0, hc.1, hc.2]

/-- Modelled from the spec: the pipeline code that creates link tables is
not part of this repository snapshot (only the web layer is), so the
LinkTable row shape is taken from §3 of the spec: one row per
`{row_id (foreign key to the base table's row), central_gene_id}`. -/
structure LinkTableRow where
  row_id : Nat
  central_gene_id : Nat
deriving DecidableEq, Repr

/-- Claim-side count of entries flagged perturbed (field 3 equal to "1")
in a `link_tables` encoding. -/
def perturbedFlagCount (s : String) : Nat :=
  ((parseCsvList s).filter (fun e => decide ((jsSplit (Char.ofNat 58) e).getD 2 "" = "1"))).length

/-- Claim-side count of entries flagged target (field 4 equal to "1")
in a `link_tables` encoding. -/
def targetFlagCount (s : String) : Nat :=
  ((parseCsvList s).filter (fun e => decide ((jsSplit (Char.ofNat 58) e).getD 3 "" = "1"))).length

theorem gpParse_ok_isPerturbed {entry : String} {l : GpLink}
    (h : gpParseLinkEntryE entry = .ok l) :
    l.isPerturbed = decide ((jsSplit (Char.ofNat 58) entry).getD 2 "" = "1") := by
  rw [gpParseLinkEntryE_eq] at h
  cases hs : sanitizeE (agExtractName entry) with
  | error m => rw [hs] at h; cases h
  | ok tn => rw [hs] at h; cases h; rfl

theorem gpParse_ok_isTarget {entry : String} {l : GpLink}
    (h : gpParseLinkEntryE entry = .ok l) :
    l.isTarget = decide ((jsSplit (Char.ofNat 58) entry).getD 3 "" = "1") := by
  rw [gpParseLinkEntryE_eq] at h
  cases hs : sanitizeE (agExtractName entry) with
  | error m => rw [hs] at h; cases h
  | ok tn => rw [hs] at h; cases h; rfl

theorem headD_filter_map_mem {l : List α} {pr : α → Bool} {f : α → β} {d : β}
    (h : (l.filter pr).length = 1) : ((l.filter pr).map f).headD d ∈ l.map f := by
  cases hf : l.filter pr with
  | nil => rw [hf] at h; cases h
  | cons x xs =>
    have hx : x ∈ l := List.mem_of_mem_filter (hf ▸ List.mem_cons_self x xs)
    exact List.mem_map_of_mem f hx

/-! ### Claim C1 -/

def c1crow : DataTableRow :=
  { table_name := "tbl2", gene_columns := "g", display_columns := "val",
    link_tables := some "g:ltp:1:0,h:ltt:0:1" }

/-- C1, counterexample: at a concrete `data_tables` row processed by both
handlers, gene-data's WHERE comparisons use the link-table column
`entrez_gene` while gene-pair-data's use `central_gene_id`, so the two
handlers do not filter on the same central-gene-id column name. -/
theorem C1_counterexample :
    (gdProcessRow "9" (some "8") (some "7") c1crow).toOption.join.map
        (fun q => ((q.whereGroups.map (fun g => g.map (fun w => w.column))).flatten).dedup) =
      some ["entrez_gene"] ∧
    (gpProcessRow (some "8") (some "7") c1crow).toOption.join.map
        (fun q => (q.conds.map (fun w => w.column)).dedup) =
      some ["central_gene_id"] ∧
    ("entrez_gene" : String) ≠ "central_gene_id" := by decide

/-- C1 (amended): every link table row is `{row_id, central_gene_id}`
(spec-modelled, `LinkTableRow`); for every `data_tables` row both handlers
derive the same link tables — gene-data joins the full parsed name
sequence and gene-pair-data's perturbed and target tables are members of
it — but gene-data compares the requested gene id against the link
table's `entrez_gene` column while gene-pair-data compares against its
`central_gene_id` column. -/
theorem C1_same_tables_different_columns (e : String) (p t : Option String)
    (row : DataTableRow) (q1 : GdQuery) (q2 : GpQuery)
    (h1 : gdProcessRow e p t row = .ok (some q1))
    (h2 : gpProcessRow p t row = .ok (some q2)) :
    q1.links.map (fun l => l.tableName) =
      (parseCsvList (jsOrString row.link_tables "")).map agExtractName ∧
    q2.perturbedLT ∈ (parseCsvList (jsOrString row.link_tables "")).map agExtractName ∧
    q2.targetLT ∈ (parseCsvList (jsOrString row.link_tables "")).map agExtractName ∧
    (∀ g ∈ q1.whereGroups, ∀ w ∈ g, w.column = "entrez_gene") ∧
    (∀ w ∈ q2.conds, w.column = "central_gene_id") := by
  obtain ⟨-, -, hL1, -, -, hcols1, -⟩ := gdProcessRow_inv h1
  obtain ⟨-, -, -, parsed, hL2, hp1, ht1, hpe, hte, hcols2, -⟩ := gpProcessRow_inv h2
  have hnames := mapME_gp_names hL2
  refine ⟨mapME_gd_names hL1, ?_, ?_, hcols1, hcols2⟩
  · rw [hpe, ← hnames]
    exact headD_filter_map_mem hp1
  · rw [hte, ← hnames]
    exact headD_filter_map_mem ht1

def c1wrow : DataTableRow :=
  { table_name := "tblw", gene_columns := "g", display_columns := "valcol",
    link_tables := some "g:ltp:1:0,h:ltt:0:1" }

def c1wq1 : GdQuery :=
  { baseTable := "tblw", displayCols := ["valcol"],
    links := [{ tableName := "ltp", isPerturbed := true, isTarget := false },
              { tableName := "ltt", isPerturbed := false, isTarget := true }],
    whereGroups := [[{ alias0 := "lt0", column := "entrez_gene" },
                     { alias0 := "lt1", column := "entrez_gene" }],
                    [{ alias0 := "lt0", column := "entrez_gene" }],
                    [{ alias0 := "lt1", column := "entrez_gene" }]],
    params := ["9", "8", "7"] }

def c1wq2 : GpQuery :=
  { baseTable := "tblw", displayCols := ["valcol"],
    perturbedLT := "ltp", targetLT := "ltt",
    joins := [{ table := "ltp", alias0 := "p" }, { table := "ltt", alias0 := "t" }],
    conds := [{ alias0 := "p", column := "central_gene_id" },
              { alias0 := "t", column := "central_gene_id" }],
    params := ["8", "7"] }

/-- C1, witness: the amended theorem applied at a concrete row on which
both handlers build queries. -/
theorem C1_witness :
    (gdProcessRow "9" (some "8") (some "7") c1wrow = .ok (some c1wq1) ∧
     gpProcessRow (some "8") (some "7") c1wrow = .ok (some c1wq2)) ∧
    (c1wq1.links.map (fun l => l.tableName) =
       (parseCsvList (jsOrString c1wrow.link_tables "")).map agExtractName ∧
     c1wq2.perturbedLT ∈ (parseCsvList (jsOrString c1wrow.link_tables "")).map agExtractName ∧
     c1wq2.targetLT ∈ (parseCsvList (jsOrString c1wrow.link_tables "")).map agExtractName ∧
     (∀ g ∈ c1wq1.whereGroups, ∀ w ∈ g, w.column = "entrez_gene") ∧
     (∀ w ∈ c1wq2.conds, w.column = "central_gene_id")) :=
  ⟨⟨by rfl, by rfl⟩,
   C1_same_tables_different_columns "9" (some "8") (some "7") c1wrow c1wq1 c1wq2
     (by rfl) (by rfl)⟩

/-! ### Claim C2 -/

def c2crow : DataTableRow :=
  { table_name := "tblc2", gene_columns := "g", display_columns := "",
    link_tables := some "g:lta:1:0,h:ltb:0:1" }

/-- C2, counterexample: a `data_tables` row whose `link_tables` encoding
has exactly one perturbed-flagged and exactly one target-flagged entry
but whose `display_columns` parse to the empty list is skipped by
gene-pair-data (no pair query is built), refuting the claimed
if-and-only-if. -/
theorem C2_counterexample :
    perturbedFlagCount (jsOrString c2crow.link_tables "") = 1 ∧
    targetFlagCount (jsOrString c2crow.link_tables "") = 1 ∧
    gpProcessRow (some "6") (some "7") c2crow = .ok none := by
  refine ⟨by decide, by decide, by rfl⟩

/-- C2 (amended): given that the row's identifiers sanitize, gene-pair-data
builds and runs a pair query against the row's base table if and only if
the row's `display_columns` parse to a nonempty list AND parsing its
`link_tables` encoding yields exactly one perturbed-flagged and exactly
one target-flagged entry; a row failing any of these contributes no
results. -/
theorem C2_pair_query_iff (p t : Option String) (row : DataTableRow)
    (b : String) (d : List String) (parsed : List GpLink)
    (hB : sanitizeE row.table_name = .ok b)
    (hD : mapME sanitizeE (parseCsvList row.display_columns) = .ok d)
    (hL : mapME gpParseLinkEntryE (parseCsvList (jsOrString row.link_tables "")) = .ok parsed) :
    (∃ q, gpProcessRow p t row = .ok (some q)) ↔
      (parseCsvList row.display_columns ≠ [] ∧
       perturbedFlagCount (jsOrString row.link_tables "") = 1 ∧
       targetFlagCount (jsOrString row.link_tables "") = 1) := by
  rw [gpProcessRow_some_iff hB hD hL]
  have hd : d = parseCsvList row.display_columns := mapME_ok_id hD
  have hp : (parsed.filter (fun x => x.isPerturbed)).length =
      perturbedFlagCount (jsOrString row.link_tables "") :=
    mapME_ok_filter_length (fun a bl hb => gpParse_ok_isPerturbed hb) hL
  have ht : (parsed.filter (fun x => x.isTarget)).length =
      targetFlagCount (jsOrString row.link_tables "") :=
    mapME_ok_filter_length (fun a bl hb => gpParse_ok_isTarget hb) hL
  rw [hd, hp, ht]

def c2wrow : DataTableRow :=
  { table_name := "tblc2w", gene_columns := "g", display_columns := "vala, valb",
    link_tables := some "g:lta:1:0,h:ltb:0:1,k:ltc:0:0" }

/-- C2, witness: the amended equivalence evaluated at a concrete row with
nonempty display columns, one perturbed and one target entry. -/
theorem C2_witness :
    (sanitizeE c2wrow.table_name = .ok "tblc2w" ∧
     mapME sanitizeE (parseCsvList c2wrow.display_columns) = .ok ["vala", "valb"] ∧
     (mapME gpParseLinkEntryE (parseCsvList (jsOrString c2wrow.link_tables ""))).isOk = true) ∧
    ((∃ q, gpProcessRow (some "6") (some "7") c2wrow = .ok (some q)) ↔
      (parseCsvList c2wrow.display_columns ≠ [] ∧
       perturbedFlagCount (jsOrString c2wrow.link_tables "") = 1 ∧
       targetFlagCount (jsOrString c2wrow.link_tables "") = 1)) :=
  ⟨⟨by rfl, by rfl, by rfl⟩,
   C2_pair_query_iff (some "6") (some "7") c2wrow "tblc2w" ["vala", "valb"]
     [{ geneColumn := "g", linkTable := "lta", isPerturbed := true, isTarget := false },
      { geneColumn := "h", linkTable := "ltb", isPerturbed := false, isTarget := true },
      { geneColumn := "k", linkTable := "ltc", isPerturbed := false, isTarget := false }]
     (by rfl) (by rfl) (by rfl)⟩

/-! ### Claim C6 -/

theorem gd_toOption_name (entry : String) :
    (gdParseLinkEntryE entry).toOption.map (fun l => l.tableName) =
      sanitizeIdentifier (agExtractName entry) := by
  rw [gdParseLinkEntryE_eq]
  unfold sanitizeE
  cases h : sanitizeIdentifier (agExtractName entry) with
  | none => simp [Except.toOption]
  | some s => simp [Except.toOption]

theorem gp_toOption_name (entry : String) :
    (gpParseLinkEntryE entry).toOption.map (fun l => l.linkTable) =
      sanitizeIdentifier (agExtractName entry) := by
  rw [gpParseLinkEntryE_eq]
  unfold sanitizeE
  cases h : sanitizeIdentifier (agExtractName entry) with
  | none => simp [Except.toOption]
  | some s => simp [Except.toOption]

def c6crow : DataTableRow :=
  { table_name := "tbl6", gene_columns := "g", display_columns := "col1",
    link_tables := some "g:lta:1:0,h:ltb:0:1,k:ltc:0:0" }

/-- C6, counterexample: the three parsers extract the same names, but the
handlers do not query the same sequence of link tables — at a concrete
row with three link entries, gene-data joins all three parsed link
tables while gene-pair-data joins only the perturbed and the target
one. -/
theorem C6_counterexample :
    (gdProcessRow "5" (some "6") (some "7") c6crow).toOption.join.map
        (fun q => q.links.map (fun l => l.tableName)) = some ["lta", "ltb", "ltc"] ∧
    (gpProcessRow (some "6") (some "7") c6crow).toOption.join.map
        (fun q => q.joins.map (fun j => j.table)) = some ["lta", "ltb"] ∧
    (["lta", "ltb", "ltc"] : List String) ≠ ["lta", "ltb"] := by
  refine ⟨by rfl, by rfl, by decide⟩

/-- C6 (amended): for every `link_tables` entry string the three parsers
(gene-data's, gene-pair-data's, and the scanning all-genes variant's)
extract the same physical link-table name — the second colon-separated
field when the entry has at least two fields, otherwise the first —
gene-data and gene-pair-data additionally sanitizing it; hence the three
handlers derive the same ordered sequence of link-table names from any
`data_tables` row (gene-pair-data then joins only the perturbed and the
target entry of that sequence rather than all of them). -/
theorem C6_extract_same_name (entry : String) (s : String) :
    ((gdParseLinkEntryE entry).toOption.map (fun l => l.tableName) =
       sanitizeIdentifier (agExtractName entry)) ∧
    ((gpParseLinkEntryE entry).toOption.map (fun l => l.linkTable) =
       sanitizeIdentifier (agExtractName entry)) ∧
    (∀ l1 l2, mapME gdParseLinkEntryE (parseCsvList s) = .ok l1 →
       mapME gpParseLinkEntryE (parseCsvList s) = .ok l2 →
       l1.map (fun x => x.tableName) = agLinkNames s ∧
       l2.map (fun x => x.linkTable) = agLinkNames s) := by
  refine ⟨gd_toOption_name entry, gp_toOption_name entry, ?_⟩
  intro l1 l2 h1 h2
  exact ⟨mapME_gd_names h1, mapME_gp_names h2⟩

/-- C6, witness: the amended statement applied at a concrete entry and a
concrete `link_tables` encoding. -/
theorem C6_witness :
    ((gdParseLinkEntryE "g:lta:1:0").toOption.map (fun l => l.tableName) =
       sanitizeIdentifier (agExtractName "g:lta:1:0")) ∧
    mapME gdParseLinkEntryE (parseCsvList "g:lta:1:0,h:ltb:0:1") =
      .ok [{ tableName := "lta", isPerturbed := true, isTarget := false },
           { tableName := "ltb", isPerturbed := false, isTarget := true }] ∧
    ([{ tableName := "lta", isPerturbed := true, isTarget := false },
      { tableName := "ltb", isPerturbed := false, isTarget := true }] : List GdLink).map
        (fun x => x.tableName) = agLinkNames "g:lta:1:0,h:ltb:0:1" :=
  ⟨(C6_extract_same_name "g:lta:1:0" "g:lta:1:0,h:ltb:0:1").1,
   by rfl,
   ((C6_extract_same_name "g:lta:1:0" "g:lta:1:0,h:ltb:0:1").2.2
      [{ tableName := "lta", isPerturbed := true, isTarget := false },
       { tableName := "ltb", isPerturbed := false, isTarget := true }]
      [{ geneColumn := "g", linkTable := "lta", isPerturbed := true, isTarget := false },
       { geneColumn := "h", linkTable := "ltb", isPerturbed := false, isTarget := true }]
      (by rfl) (by rfl)).1⟩

/-! ### Claim C5 -/

/-- Every accumulated gene-data result comes from a processed row's query
with a nonempty row set. -/
theorem gdLoop_mem {exec : GdQuery → Option (List Nat)} {e : String} {p t : Option String} :
    ∀ {tables : List DataTableRow} {acc res : List GdResult} {r : GdResult},
      gdLoop exec e p t tables acc = .ok res → r ∈ res →
      r ∈ acc ∨ ∃ row ∈ tables, ∃ q, gdProcessRow e p t row = .ok (some q) ∧
        ∃ rows, exec q = some rows ∧ 0 < rows.length ∧
          r = { tableName := row.table_name, displayColumns := q.displayCols, rows := rows } := by
  intro tables
  induction tables with
  | nil =>
    intro acc res r h hr
    unfold gdLoop at h
    injection h with h
    subst h
    exact Or.inl hr
  | cons row rest ih =>
    intro acc res r h hr
    unfold gdLoop at h
    split at h
    · cases h
    · rcases ih h hr with hacc | ⟨row2, hrow2, hrest⟩
      · exact Or.inl hacc
      · exact Or.inr ⟨row2, List.mem_cons_of_mem _ hrow2, hrest⟩
    · rename_i q hq
      split at h
      · rcases ih h hr with hacc | ⟨row2, hrow2, hrest⟩
        · exact Or.inl hacc
        · exact Or.inr ⟨row2, List.mem_cons_of_mem _ hrow2, hrest⟩
      · rename_i rows hrows
        split at h
        · rename_i hpos
          rcases ih h hr with hacc | ⟨row2, hrow2, hrest⟩
          · rcases List.mem_append.mp hacc with hacc | hacc
            · exact Or.inl hacc
            · simp only [List.mem_singleton] at hacc
              exact Or.inr ⟨row, List.mem_cons_self _ _,
                q, hq, rows, hrows, hpos, hacc⟩
          · exact Or.inr ⟨row2, List.mem_cons_of_mem _ hrow2, hrest⟩
        · rcases ih h hr with hacc | ⟨row2, hrow2, hrest⟩
          · exact Or.inl hacc
          · exact Or.inr ⟨row2, List.mem_cons_of_mem _ hrow2, hrest⟩

/-- C5 (confirmed): for every `data_tables` row that gene-data includes in
its results, the query it issued selects exactly the comma-split,
trimmed, nonempty display columns of the row, joins exactly the link
tables parsed from the row's `link_tables`, filters only on link-table
gene-id comparisons against the requested gene ids, and rows whose
`display_columns` or `link_tables` parse to the empty list are skipped
entirely. -/
theorem C5_gd_query_shape (exec : GdQuery → Option (List Nat))
    (e : String) (p t : Option String) :
    (∀ (tables : List DataTableRow) (res : List GdResult) (r : GdResult),
       gdHandlerResults exec e p t tables = .ok res → r ∈ res →
       ∃ row ∈ tables, ∃ q : GdQuery,
         gdProcessRow e p t row = .ok (some q) ∧
         r.tableName = row.table_name ∧
         r.displayColumns = q.displayCols ∧
         q.baseTable = row.table_name ∧
         q.displayCols = parseCsvList row.display_columns ∧
         q.links.map (fun l => l.tableName) =
           (parseCsvList (jsOrString row.link_tables "")).map agExtractName ∧
         parseCsvList row.display_columns ≠ [] ∧
         parseCsvList (jsOrString row.link_tables "") ≠ [] ∧
         (∀ g ∈ q.whereGroups, ∀ w ∈ g, w.column = "entrez_gene") ∧
         (∀ x ∈ q.params, x = e ∨ p = some x ∨ t = some x)) ∧
    (∀ row : DataTableRow, ∀ b, sanitizeE row.table_name = .ok b →
       (parseCsvList row.display_columns = [] → gdProcessRow e p t row = .ok none) ∧
       (parseCsvList (jsOrString row.link_tables "") = [] →
         parseCsvList row.display_columns ≠ [] →
         ∀ d, mapME sanitizeE (parseCsvList row.display_columns) = .ok d →
           gdProcessRow e p t row = .ok none)) := by
  constructor
  · intro tables res r h hr
    rcases gdLoop_mem h hr with hacc | ⟨row, hrow, q, hq, rows, hrows, hpos, hreq⟩
    · cases hacc
    obtain ⟨hB, hD, hL, hdne, hlne, hcols, hparams⟩ := gdProcessRow_inv hq
    have hdisp : q.displayCols = parseCsvList row.display_columns := mapME_ok_id hD
    refine ⟨row, hrow, q, hq, ?_, ?_, ?_, hdisp, mapME_gd_names hL, ?_, ?_, hcols, hparams⟩
    · rw [hreq]
    · rw [hreq]
    · exact (sanitizeE_ok_eq hB).symm ▸ rfl
    · rw [← hdisp]; exact hdne
    · intro hnil
      rw [hnil] at hL
      simp [mapME] at hL
      exact hlne hL
  · intro row b hB
    constructor
    · intro hnil
      unfold gdProcessRow
      rw [hB]
      simp [hnil, mapME]
    · intro hnil hdne d hD
      unfold gdProcessRow
      rw [hB]
      simp only [hD, hnil, mapME]
      rw [if_neg (fun hc => hdne (by rw [← mapME_ok_id hD, hc]))]
      simp [mapME]

def c5wrow : DataTableRow :=
  { table_name := "tblc5", gene_columns := "g", display_columns := "colx",
    link_tables := some "g:lt5:1:0" }

def c5wq : GdQuery :=
  { baseTable := "tblc5", displayCols := ["colx"],
    links := [{ tableName := "lt5", isPerturbed := true, isTarget := false }],
    whereGroups := [[{ alias0 := "lt0", column := "entrez_gene" }]],
    params := ["3"] }

/-- C5, witness: the theorem applied with a concrete `exec` returning one
row for the single data table, whose result list it fully determines. -/
theorem C5_witness :
    (gdHandlerResults (fun _ => some [7]) "3" none none [c5wrow] =
       .ok [{ tableName := "tblc5", displayColumns := ["colx"], rows := [7] }]) ∧
    (∃ row ∈ [c5wrow], ∃ q : GdQuery,
       gdProcessRow "3" none none row = .ok (some q) ∧
       ({ tableName := "tblc5", displayColumns := ["colx"], rows := [7] } : GdResult).tableName
           = row.table_name ∧
       ({ tableName := "tblc5", displayColumns := ["colx"], rows := [7] } : GdResult).displayColumns
           = q.displayCols ∧
       q.baseTable = row.table_name ∧
       q.displayCols = parseCsvList row.display_columns ∧
       q.links.map (fun l => l.tableName) =
         (parseCsvList (jsOrString row.link_tables "")).map agExtractName ∧
       parseCsvList row.display_columns ≠ [] ∧
       parseCsvList (jsOrString row.link_tables "") ≠ [] ∧
       (∀ g ∈ q.whereGroups, ∀ w ∈ g, w.column = "entrez_gene") ∧
       (∀ x ∈ q.params, x = "3" ∨ none = some x ∨ none = some x)) :=
  ⟨by rfl,
   (C5_gd_query_shape (fun _ => some [7]) "3" none none).1 [c5wrow]
     [{ tableName := "tblc5", displayColumns := ["colx"], rows := [7] }]
     { tableName := "tblc5", displayColumns := ["colx"], rows := [7] }
     (by rfl) (by simp)⟩

/-! ### The suggestions library (`src/web/lib/suggestions.ts`, first document) -/

/-- A row of one of the `<species>_entrez_gene` tables. -/
structure SpeciesGeneRow where
  entrez_id : Nat
  name : String
  is_symbol : Nat
deriving DecidableEq, Repr

/-- The part of the store `fetchGeneSuggestions` reads. -/
structure SuggestDb where
  human : List SpeciesGeneRow
  mouse : List SpeciesGeneRow
  zebrafish : List SpeciesGeneRow
deriving DecidableEq, Repr

/-- The `SearchSuggestion` shape returned by the suggestions library. -/
structure SearchSuggestion where
  species : String
  name : String
  entrezId : String
deriving DecidableEq, Repr

/-- A SQL operation issued against the store: the suggestions code only
ever prepares read (SELECT) statements, but the op vocabulary also has a
write constructor so that "reads do not mutate the store" is a statement
with content. -/
inductive SqlOp where
  | read (table : String) (likeParam : String) : SqlOp
  | write (table : String) : SqlOp
deriving DecidableEq, Repr

/-- Effect of an operation on the store: reads leave it unchanged, writes
mutate it through an arbitrary mutator `m`. -/
def applyOp (m : String → SuggestDb → SuggestDb) (db : SuggestDb) : SqlOp → SuggestDb
  | .read _ _ => db
  | .write tbl => m tbl db

/-- `text.trim().replace(/['"]/g, "")` — note the order: trim first, then
strip apostrophes and double quotes. -/
def searchTextOf (text : String) : String :=
  String.mk ((jsTrim text).toList.filter
    (fun c => c ≠ Char.ofNat 39 ∧ c ≠ Char.ofNat 34))

/-- The `/^\d+$/` test. -/
def isNumericStr (s : String) : Bool :=
  s.toList ≠ [] && s.toList.all Char.isDigit

/-- ASCII lowercasing (SQLite `LIKE` is ASCII-case-insensitive). -/
def jsToLower (s : String) : String := String.mk (s.toList.map Char.toLower)

/-- `name LIKE 'q%'` — case-insensitive prefix match. -/
def sqlLikeStart (name q : String) : Bool :=
  (jsToLower q).toList.isPrefixOf (jsToLower name).toList

/-- The per-row WHERE clause of `runSpeciesQuery`:
`name LIKE ?` (prefix) or, for numeric input, `entrez_id = ?`. -/
def speciesRowPred (searchText : String) (r : SpeciesGeneRow) : Bool :=
  sqlLikeStart r.name searchText ||
    (isNumericStr searchText && decide (r.entrez_id = digitsVal searchText.toList))

/-- `ORDER BY is_symbol DESC, name ASC`. -/
def speciesRowLe (a b : SpeciesGeneRow) : Bool :=
  if a.is_symbol = b.is_symbol then decide (a.name ≤ b.name)
  else decide (b.is_symbol < a.is_symbol)

/-- `runSpeciesQuery` from the suggestions library: one prepared SELECT
with a LIKE prefix parameter, ordered, limited, mapped to suggestions.
Returns the rows together with the issued operation. -/
def runSpeciesQuery (rows : List SpeciesGeneRow) (searchText : String) (pageLimit : Nat)
    (tableName species : String) : List SearchSuggestion × SqlOp :=
  ((sortByLe speciesRowLe (rows.filter (speciesRowPred searchText))).take pageLimit |>.map
     (fun r => { species := species, name := r.name, entrezId := toString r.entrez_id }),
   SqlOp.read tableName (searchText ++ "%"))

/-- The final for-loop of `fetchGeneSuggestions`: push each suggestion
whose `entrezId` was not seen, stopping once `pageLimit` are collected. -/
def dedupTake (pageLimit : Nat) :
    List SearchSuggestion → List String → List SearchSuggestion → List SearchSuggestion
  | [], _, acc => acc
  | s :: rest, seen, acc =>
    if s.entrezId ∈ seen then dedupTake pageLimit rest seen acc
    else
      let acc2 := acc ++ [s]
      if pageLimit ≤ acc2.length then acc2
      else dedupTake pageLimit rest (s.entrezId :: seen) acc2

/-- `fetchGeneSuggestions` (first document of `suggestions.ts`): empty
effective search text short-circuits; otherwise three species queries run
in order and their concatenation is de-duplicated by `entrezId` up to
`pageLimit`.  Also returns the list of issued operations. -/
def fetchGeneSuggestions (db : SuggestDb) (text : String) (pageLimit : Nat) :
    List SearchSuggestion × List SqlOp :=
  let searchText := searchTextOf text
  if searchText = "" then ([], [])
  else
    let human := runSpeciesQuery db.human searchText pageLimit "human_entrez_gene" "human"
    let mouse := runSpeciesQuery db.mouse searchText pageLimit "mouse_entrez_gene" "mouse"
    let zebrafish := runSpeciesQuery db.zebrafish searchText pageLimit "zebrafish_entrez_gene" "zebrafish"
    (dedupTake pageLimit (human.1 ++ mouse.1 ++ zebrafish.1) [] [],
     [human.2, mouse.2, zebrafish.2])

/-- Claim-side first-occurrence de-duplication (no page limit):
"the concatenation with only duplicates removed, relative order preserved". -/
def dedupByEntrez : List SearchSuggestion → List String → List SearchSuggestion
  | [], _ => []
  | s :: rest, seen =>
    if s.entrezId ∈ seen then dedupByEntrez rest seen
    else s :: dedupByEntrez rest (s.entrezId :: seen)

theorem dedupTake_eq (p : Nat) :
    ∀ (l : List SearchSuggestion) (seen : List String) (acc : List SearchSuggestion),
      acc.length < p →
      dedupTake p l seen acc = acc ++ (dedupByEntrez l seen).take (p - acc.length) := by
  intro l
  induction l with
  | nil => intro seen acc hlt; simp [dedupTake, dedupByEntrez]
  | cons s rest ih =>
    intro seen acc hlt
    unfold dedupTake dedupByEntrez
    by_cases hseen : s.entrezId ∈ seen
    · simp only [if_pos hseen]
      exact ih seen acc hlt
    · simp only [if_neg hseen]
      by_cases hfull : p ≤ (acc ++ [s]).length
      · have hp : p - acc.length = 1 := by
          simp only [List.length_append, List.length_singleton] at hfull ⊢
          omega
        simp only [if_pos hfull, hp, List.take_succ_cons, List.take_zero]
      · simp only [if_neg hfull]
        have hlt2 : (acc ++ [s]).length < p := by
          simp only [List.length_append, List.length_singleton] at hfull ⊢
          omega
        rw [ih _ _ hlt2]
        have harith : p - acc.length = (p - (acc ++ [s]).length) + 1 := by
          simp only [List.length_append, List.length_singleton]
          omega
        rw [harith, List.take_succ_cons, List.append_assoc]
        rfl

theorem dedupByEntrez_nodup :
    ∀ (l : List SearchSuggestion) (seen : List String),
      ((dedupByEntrez l seen).map (fun s => s.entrezId)).Nodup ∧
      (∀ x ∈ (dedupByEntrez l seen).map (fun s => s.entrezId), x ∉ seen) := by
  intro l
  induction l with
  | nil => intro seen; simp [dedupByEntrez]
  | cons s rest ih =>
    intro seen
    unfold dedupByEntrez
    by_cases hseen : s.entrezId ∈ seen
    · simp only [if_pos hseen]
      exact ih seen
    · simp only [if_neg hseen, List.map_cons, List.nodup_cons]
      obtain ⟨hnd, hout⟩ := ih (s.entrezId :: seen)
      refine ⟨⟨fun hmem => ?_, hnd⟩, ?_⟩
      · exact (hout _ hmem) (List.mem_cons_self _ _)
      · intro x hx
        simp only [List.mem_cons] at hx
        rcases hx with hx | hx
        · subst hx; exact hseen
        · intro hxs
          exact (hout x hx) (List.mem_cons_of_mem _ hxs)

/-! ### Claim C7 -/

theorem foldl_reads_id (m : String → SuggestDb → SuggestDb) :
    ∀ (l : List SqlOp),
      (∀ op ∈ l, ∀ (m2 : String → SuggestDb → SuggestDb) (db2 : SuggestDb),
        applyOp m2 db2 op = db2) →
      ∀ db : SuggestDb, l.foldl (applyOp m) db = db := by
  intro l
  induction l with
  | nil => intro _ db; rfl
  | cons op rest ih =>
    intro h db
    have hop := h op (List.mem_cons_self _ _) m db
    simp only [List.foldl_cons, hop]
    exact ih (fun o ho => h o (List.mem_cons_of_mem _ ho)) db

/-- C7 (confirmed): gene lookup is deterministic — `fetchGeneSuggestions`
issues only read operations, so for a fixed store state a second call
made after the first (on the store as left by the first call's
operations, under any write semantics `m`) returns the same suggestion
list, element for element. -/
theorem C7_fetch_deterministic (m : String → SuggestDb → SuggestDb)
    (db : SuggestDb) (text : String) (pageLimit : Nat) :
    (∀ op ∈ (fetchGeneSuggestions db text pageLimit).2,
       ∀ (m2 : String → SuggestDb → SuggestDb) (db2 : SuggestDb), applyOp m2 db2 op = db2) ∧
    (fetchGeneSuggestions
        (((fetchGeneSuggestions db text pageLimit).2).foldl (applyOp m) db) text pageLimit).1 =
      (fetchGeneSuggestions db text pageLimit).1 := by
  have hops : ∀ op ∈ (fetchGeneSuggestions db text pageLimit).2,
      ∀ (m2 : String → SuggestDb → SuggestDb) (db2 : SuggestDb), applyOp m2 db2 op = db2 := by
    unfold fetchGeneSuggestions
    by_cases h : searchTextOf text = ""
    · simp [h]
    · simp only [if_neg h]
      intro op hop
      simp only [runSpeciesQuery, List.mem_cons, List.not_mem_nil, or_false] at hop
      rcases hop with rfl | rfl | rfl <;> intro m2 db2 <;> rfl
  refine ⟨hops, ?_⟩
  rw [foldl_reads_id m _ hops db]

/-! ### Claim C9 -/

/-- C9, counterexample: the input made of an apostrophe, a space and a
double quote consists only of whitespace, apostrophes and double quotes,
yet `fetchGeneSuggestions` issues database queries on it (trimming
happens before quote-stripping, leaving the inner space). -/
theorem C9_counterexample :
    ((String.mk [Char.ofNat 39, Char.ofNat 32, Char.ofNat 34]).toList.all
       (fun c => c.isWhitespace || c = Char.ofNat 39 || c = Char.ofNat 34) = true) ∧
    (fetchGeneSuggestions ⟨[], [], []⟩
       (String.mk [Char.ofNat 39, Char.ofNat 32, Char.ofNat 34]) 8).2 ≠ [] := by
  refine ⟨by decide, by decide⟩

/-- C9 (amended): for every input and positive `pageLimit`,
`fetchGeneSuggestions` returns at most `pageLimit` suggestions with
pairwise-distinct `entrezId`s, equal to the first-occurrence
de-duplication of the human, mouse and zebrafish query results
concatenated in that order, truncated to `pageLimit`; and it returns the
empty list without querying the database exactly when the input, after
trimming whitespace and then deleting apostrophes and double quotes, is
empty. -/
theorem C9_suggestions_shape (db : SuggestDb) (text : String) (p : Nat) (hp : 0 < p) :
    (fetchGeneSuggestions db text p).1.length ≤ p ∧
    ((fetchGeneSuggestions db text p).1.map (fun s => s.entrezId)).Nodup ∧
    (searchTextOf text = "" → fetchGeneSuggestions db text p = ([], [])) ∧
    (searchTextOf text ≠ "" →
      (fetchGeneSuggestions db text p).1 =
        (dedupByEntrez
          ((runSpeciesQuery db.human (searchTextOf text) p "human_entrez_gene" "human").1 ++
           (runSpeciesQuery db.mouse (searchTextOf text) p "mouse_entrez_gene" "mouse").1 ++
           (runSpeciesQuery db.zebrafish (searchTextOf text) p "zebrafish_entrez_gene" "zebrafish").1)
          []).take p) := by
  by_cases h : searchTextOf text = ""
  · have hfe : fetchGeneSuggestions db text p = ([], []) := by
      unfold fetchGeneSuggestions
      simp [h]
    refine ⟨by simp [hfe], by simp [hfe], fun _ => hfe, fun hne => absurd h hne⟩
  · have hfe : (fetchGeneSuggestions db text p).1 =
        (dedupByEntrez
          ((runSpeciesQuery db.human (searchTextOf text) p "human_entrez_gene" "human").1 ++
           (runSpeciesQuery db.mouse (searchTextOf text) p "mouse_entrez_gene" "mouse").1 ++
           (runSpeciesQuery db.zebrafish (searchTextOf text) p "zebrafish_entrez_gene" "zebrafish").1)
          []).take p := by
      unfold fetchGeneSuggestions
      simp only [if_neg h]
      rw [dedupTake_eq p _ [] [] (by simpa using hp)]
      simp
    refine ⟨?_, ?_, fun he => absurd he h, fun _ => hfe⟩
    · rw [hfe]
      exact le_trans (List.length_take_le _ _) (le_refl p)
    · rw [hfe, List.map_take]
      exact List.Sublist.nodup (List.take_sublist _ _) (dedupByEntrez_nodup _ []).1

def c9wdb : SuggestDb :=
  { human := [{ entrez_id := 10, name := "ABC", is_symbol := 1 },
              { entrez_id := 11, name := "ABD", is_symbol := 0 }],
    mouse := [{ entrez_id := 10, name := "Abc", is_symbol := 1 }],
    zebrafish := [] }

/-- C9, witness: the amended statement applied at a concrete store, input
and positive page limit. -/
theorem C9_witness :
    0 < 2 ∧
    ((fetchGeneSuggestions c9wdb "ab" 2).1.length ≤ 2 ∧
     ((fetchGeneSuggestions c9wdb "ab" 2).1.map (fun s => s.entrezId)).Nodup ∧
     (searchTextOf "ab" = "" → fetchGeneSuggestions c9wdb "ab" 2 = ([], [])) ∧
     (searchTextOf "ab" ≠ "" →
       (fetchGeneSuggestions c9wdb "ab" 2).1 =
         (dedupByEntrez
           ((runSpeciesQuery c9wdb.human (searchTextOf "ab") 2 "human_entrez_gene" "human").1 ++
            (runSpeciesQuery c9wdb.mouse (searchTextOf "ab") 2 "mouse_entrez_gene" "mouse").1 ++
            (runSpeciesQuery c9wdb.zebrafish (searchTextOf "ab") 2 "zebrafish_entrez_gene" "zebrafish").1)
           []).take 2)) :=
  ⟨by decide, C9_suggestions_shape c9wdb "ab" 2 (by decide)⟩

/-! ### getDb (`src/unnamed/part_010`, `part_011`, `part_012`) -/

/-- Options passed to `new Database(path, opts)`. -/
structure DbOpenOptions where
  readonly : Bool
  fileMustExist : Bool
deriving DecidableEq, Repr

/-- An opened better-sqlite3 database handle. -/
structure DbInstance where
  path : String
  opts : DbOpenOptions
deriving DecidableEq, Repr

/-- Observable effect of a `getDb` call: opening the store. -/
inductive DbEvent where
  | opened (path : String) (opts : DbOpenOptions)
deriving DecidableEq, Repr

/-- `getDb` of `part_010` (fixed path `data/db/sspsygene.db`), with the
module-level `dbInstance` cache made an explicit state: returns the
result, the new cache state, and the open events performed. -/
def getDb_a (dbInstance : Option DbInstance) :
    DbInstance × Option DbInstance × List DbEvent :=
  match dbInstance with
  | some i => (i, some i, [])
  | none =>
    let i : DbInstance :=
      { path := "/Users/jbirgmei/prog/sspsygene/data/db/sspsygene.db",
        opts := { readonly := true, fileMustExist := true } }
    (i, some i, [DbEvent.opened i.path i.opts])

/-- `getDb` of `part_011` (fixed path `data/pheno/pheno.db`). -/
def getDb_b (dbInstance : Option DbInstance) :
    DbInstance × Option DbInstance × List DbEvent :=
  match dbInstance with
  | some i => (i, some i, [])
  | none =>
    let i : DbInstance :=
      { path := "/Users/jbirgmei/prog/sspsygene/data/pheno/pheno.db",
        opts := { readonly := true, fileMustExist := true } }
    (i, some i, [DbEvent.opened i.path i.opts])

/-- `getDb` of `part_012` (path from the `SSPSYGENE_DATA_DB` environment
variable; a missing or empty value throws before any open). -/
def getDb_c (env : Option String) (dbInstance : Option DbInstance) :
    Except String (DbInstance × Option DbInstance × List DbEvent) :=
  match dbInstance with
  | some i => .ok (i, some i, [])
  | none =>
    if jsTruthy env then
      let i : DbInstance :=
        { path := env.getD "", opts := { readonly := true, fileMustExist := true } }
      .ok (i, some i, [DbEvent.opened i.path i.opts])
    else
      .error "Environment variable SSPSYGENE_DATA_DB is not set. Please set it to the absolute path of the SQLite database file."

/-- C4 (confirmed): every `getDb` implementation opens the store with
`readonly: true` and `fileMustExist: true`; after a successful call every
subsequent call returns the same cached instance with no further open;
hence every handle the web layer ever holds is a read-only one. -/
theorem C4_getDb_readonly_cached :
    (∀ i : DbInstance,
       getDb_a (some i) = (i, some i, []) ∧
       getDb_b (some i) = (i, some i, []) ∧
       ∀ env, getDb_c env (some i) = .ok (i, some i, [])) ∧
    (∀ st res newSt events, getDb_a st = (res, newSt, events) →
       getDb_a newSt = (res, newSt, []) ∧
       ∀ pth opts, DbEvent.opened pth opts ∈ events →
         opts.readonly = true ∧ opts.fileMustExist = true) ∧
    (∀ st res newSt events, getDb_b st = (res, newSt, events) →
       getDb_b newSt = (res, newSt, []) ∧
       ∀ pth opts, DbEvent.opened pth opts ∈ events →
         opts.readonly = true ∧ opts.fileMustExist = true) ∧
    (∀ env st res newSt events, getDb_c env st = .ok (res, newSt, events) →
       (∀ env2, getDb_c env2 newSt = .ok (res, newSt, [])) ∧
       ∀ pth opts, DbEvent.opened pth opts ∈ events →
         opts.readonly = true ∧ opts.fileMustExist = true) := by
  refine ⟨fun i => ⟨rfl, rfl, fun env => rfl⟩, ?_, ?_, ?_⟩
  · intro st res newSt events h
    cases st with
    | some i =>
      injection h with h1 h2
      injection h2 with h2 h3
      subst h1; subst h2; subst h3
      exact ⟨rfl, fun pth opts hmem => by cases hmem⟩
    | none =>
      injection h with h1 h2
      injection h2 with h2 h3
      subst h1; subst h2; subst h3
      refine ⟨rfl, fun pth opts hmem => ?_⟩
      simp only [List.mem_singleton] at hmem
      cases hmem
      exact ⟨rfl, rfl⟩
  · intro st res newSt events h
    cases st with
    | some i =>
      injection h with h1 h2
      injection h2 with h2 h3
      subst h1; subst h2; subst h3
      exact ⟨rfl, fun pth opts hmem => by cases hmem⟩
    | none =>
      injection h with h1 h2
      injection h2 with h2 h3
      subst h1; subst h2; subst h3
      refine ⟨rfl, fun pth opts hmem => ?_⟩
      simp only [List.mem_singleton] at hmem
      cases hmem
      exact ⟨rfl, rfl⟩
  · intro env st res newSt events h
    cases st with
    | some i =>
      injection h with h1
      injection h1 with h1 h2
      injection h2 with h2 h3
      subst h1; subst h2; subst h3
      exact ⟨fun env2 => rfl, fun pth opts hmem => by cases hmem⟩
    | none =>
      by_cases he : jsTruthy env = true
      · simp only [getDb_c, he, if_true, Except.ok.injEq, Prod.mk.injEq] at h
        obtain ⟨h1, h2, h3⟩ := h
        subst h1; subst h2; subst h3
        refine ⟨fun env2 => rfl, fun pth opts hmem => ?_⟩
        simp only [List.mem_singleton] at hmem
        cases hmem
        exact ⟨rfl, rfl⟩
      · simp only [getDb_c, he, if_false] at h
        cases h

/-- C4, witness: the caching and open-option facts evaluated on a first
call from the empty cache for each variant. -/
theorem C4_witness :
    (getDb_a none =
      ({ path := "/Users/jbirgmei/prog/sspsygene/data/db/sspsygene.db",
         opts := { readonly := true, fileMustExist := true } },
       some { path := "/Users/jbirgmei/prog/sspsygene/data/db/sspsygene.db",
              opts := { readonly := true, fileMustExist := true } },
       [DbEvent.opened "/Users/jbirgmei/prog/sspsygene/data/db/sspsygene.db"
          { readonly := true, fileMustExist := true }])) ∧
    (getDb_a (some { path := "/Users/jbirgmei/prog/sspsygene/data/db/sspsygene.db",
                     opts := { readonly := true, fileMustExist := true } }) =
      ({ path := "/Users/jbirgmei/prog/sspsygene/data/db/sspsygene.db",
         opts := { readonly := true, fileMustExist := true } },
       some { path := "/Users/jbirgmei/prog/sspsygene/data/db/sspsygene.db",
              opts := { readonly := true, fileMustExist := true } }, []) ∧
     ∀ pth opts, DbEvent.opened pth opts ∈
         [DbEvent.opened "/Users/jbirgmei/prog/sspsygene/data/db/sspsygene.db"
            { readonly := true, fileMustExist := true }] →
       opts.readonly = true ∧ opts.fileMustExist = true) :=
  ⟨by rfl, (C4_getDb_readonly_cached.2.1 none _ _ _ (by rfl))⟩

/-! ### The dataset-data handler (`src/web/pages/api/dataset-data.ts`) -/

/-- One `data_tables` row as selected by dataset-data. -/
structure DatasetMetaRow where
  table_name : String
  display_columns : String
  description : Option String
  short_label : Option String
  long_label : Option String
  links : Option String
  categories : Option String
  organism : Option String
  publication_first_author : Option String
  publication_last_author : Option String
  publication_year : Option Int
  publication_journal : Option String
  publication_doi : Option String
  publication_pmid : Option String
deriving DecidableEq, Repr

/-- A physical base table: its column names and rows (opaque handles). -/
structure BaseTable where
  columns : List String
  rows : List Nat
deriving DecidableEq, Repr

/-- The part of the store dataset-data touches. -/
structure DatasetDb where
  dataTables : List DatasetMetaRow
  baseTables : String → Option BaseTable

/-- A SQL operation dataset-data issues: the metadata lookup in
`data_tables`, the preview SELECT on the base table, the COUNT on it. -/
inductive DsOp where
  | metaLookup (tableName : String)
  | selectRows (tableName : String)
  | countRows (tableName : String)
deriving DecidableEq, Repr

/-- The response fields of dataset-data this development reasons about
(`status`, `displayColumns`, `rows`, `totalRows`; metadata echo fields of
the 200 response are not modelled). -/
structure DsResponse where
  status : Nat
  displayColumns : List String
  rows : List Nat
  totalRows : Nat
deriving DecidableEq, Repr

/-- dataset-data's handler.  `Except.error` models the sanitization throw
at line 28, which happens before the try block; a SELECT on a missing
table or column is the try/catch path producing HTTP 500.  The returned
list records which SQL operations ran. -/
def datasetDataHandler (db : DatasetDb) (method : String) (tableNameParam : Option String) :
    Except String DsResponse × List DsOp :=
  if method ≠ "GET" then
    (.ok { status := 405, displayColumns := [], rows := [], totalRows := 0 }, [])
  else
    match tableNameParam with
    | none => (.ok { status := 400, displayColumns := [], rows := [], totalRows := 0 }, [])
    | some tn0 =>
      if tn0 = "" then
        (.ok { status := 400, displayColumns := [], rows := [], totalRows := 0 }, [])
      else
        match sanitizeE tn0 with
        | .error m => (.error m, [])
        | .ok tableName =>
          match db.dataTables.find? (fun r => r.table_name = tableName) with
          | none =>
            (.ok { status := 404, displayColumns := [], rows := [], totalRows := 0 },
             [DsOp.metaLookup tableName])
          | some metadata =>
            match mapME sanitizeE (parseCsvList metadata.display_columns) with
            | .error m =>
              (.ok { status := 500, displayColumns := [], rows := [], totalRows := 0 },
               [DsOp.metaLookup tableName])
            | .ok displayCols =>
              if displayCols = [] then
                (.ok { status := 400, displayColumns := [], rows := [], totalRows := 0 },
                 [DsOp.metaLookup tableName])
              else
                match db.baseTables tableName with
                | none =>
                  (.ok { status := 500, displayColumns := [], rows := [], totalRows := 0 },
                   [DsOp.metaLookup tableName, DsOp.selectRows tableName])
                | some bt =>
                  if displayCols.all (fun c => c ∈ bt.columns) then
                    (.ok { status := 200, displayColumns := displayCols,
                           rows := bt.rows.take 101, totalRows := bt.rows.length },
                     [DsOp.metaLookup tableName, DsOp.selectRows tableName,
                      DsOp.countRows tableName])
                  else
                    (.ok { status := 500, displayColumns := [], rows := [], totalRows := 0 },
                     [DsOp.metaLookup tableName, DsOp.selectRows tableName])

/-- C8 (confirmed, reading "columns that exist" as all parsed display
columns existing): for a GET with a word-character tableName, a missing
`data_tables` row yields 404 with no base-table query; an existing row
whose display columns parse nonempty, sanitize, and all exist in the
base table yields 200 with the parsed display columns, at most 101 rows
and `totalRows` the base table's full row count; a tableName containing
a non-word character never reaches any SQL query. -/
theorem C8_dataset_data (db : DatasetDb) (tn : String)
    (hw : tn.toList ≠ [] ∧ tn.toList.all isWordChar) :
    (db.dataTables.find? (fun r => r.table_name = tn) = none →
       datasetDataHandler db "GET" (some tn) =
         (.ok { status := 404, displayColumns := [], rows := [], totalRows := 0 },
          [DsOp.metaLookup tn])) ∧
    (∀ metadata displayCols bt,
       db.dataTables.find? (fun r => r.table_name = tn) = some metadata →
       mapME sanitizeE (parseCsvList metadata.display_columns) = .ok displayCols →
       displayCols ≠ [] →
       db.baseTables tn = some bt →
       displayCols.all (fun c => c ∈ bt.columns) = true →
       datasetDataHandler db "GET" (some tn) =
         (.ok { status := 200, displayColumns := parseCsvList metadata.display_columns,
                rows := bt.rows.take 101, totalRows := bt.rows.length },
          [DsOp.metaLookup tn, DsOp.selectRows tn, DsOp.countRows tn]) ∧
       (bt.rows.take 101).length ≤ 101) ∧
    (∀ tn2 : String, (∃ c ∈ tn2.toList, isWordChar c = false) →
       (datasetDataHandler db "GET" (some tn2)).2 = []) := by
  have htn0 : tn ≠ "" := by
    intro hcon
    exact hw.1 (by simp [hcon])
  have hsan : sanitizeE tn = .ok tn := by
    unfold sanitizeE sanitizeIdentifier
    rw [if_pos ⟨hw.1, hw.2⟩]
  refine ⟨?_, ?_, ?_⟩
  · intro hfind
    unfold datasetDataHandler
    simp [hsan, hfind, htn0]
  · intro metadata displayCols bt hfind hD hdne hbt hcols
    have hdisp : displayCols = parseCsvList metadata.display_columns := mapME_ok_id hD
    constructor
    · rw [← hdisp]
      unfold datasetDataHandler
      simp [hsan, hfind, hD, hdne, hbt, hcols, htn0]
    · exact le_trans (List.length_take_le _ _) (le_refl 101)
  · intro tn2 hbad
    obtain ⟨c, hc, hcw⟩ := hbad
    have hsan2 : sanitizeIdentifier tn2 = none := by
      unfold sanitizeIdentifier
      rw [if_neg]
      intro hcon
      have h2 := List.all_eq_true.mp hcon.2 c hc
      rw [hcw] at h2
      cases h2
    unfold datasetDataHandler
    by_cases h0 : tn2 = ""
    · simp [h0]
    · simp [h0, sanitizeE, hsan2]

def c8wdb : DatasetDb :=
  { dataTables := [{ table_name := "tbl8", display_columns := "colA, colB",
                     description := none, short_label := none, long_label := none,
                     links := none, categories := none, organism := none,
                     publication_first_author := none, publication_last_author := none,
                     publication_year := none, publication_journal := none,
                     publication_doi := none, publication_pmid := none }],
    baseTables := fun s =>
      if s = "tbl8" then some { columns := ["colA", "colB", "colC"], rows := [1, 2, 3] }
      else none }

/-- C8, witness: the 200 path evaluated at a concrete store and table. -/
theorem C8_witness :
    (("tbl8" : String).toList ≠ [] ∧ ("tbl8" : String).toList.all isWordChar) ∧
    (datasetDataHandler c8wdb "GET" (some "tbl8") =
       (.ok { status := 200, displayColumns := parseCsvList "colA, colB",
              rows := [1, 2, 3], totalRows := 3 },
        [DsOp.metaLookup "tbl8", DsOp.selectRows "tbl8", DsOp.countRows "tbl8"]) ∧
     (([1, 2, 3] : List Nat).take 101).length ≤ 101) :=
  ⟨by decide,
   by
     have h := (C8_dataset_data c8wdb "tbl8" (by decide)).2.1
       { table_name := "tbl8", display_columns := "colA, colB",
         description := none, short_label := none, long_label := none,
         links := none, categories := none, organism := none,
         publication_first_author := none, publication_last_author := none,
         publication_year := none, publication_journal := none,
         publication_doi := none, publication_pmid := none }
       ["colA", "colB"]
       { columns := ["colA", "colB", "colC"], rows := [1, 2, 3] }
       (by rfl) (by rfl) (by decide) (by rfl) (by decide)
     exact h⟩

/-! ### The all-genes handler (`src/web/pages/api/all-genes.ts`) -/

/-- One `central_gene` row. -/
structure CentralGeneRow where
  id : Nat
  human_symbol : Option String
  mouse_symbols : Option String
  human_synonyms : Option String
  mouse_synonyms : Option String
  num_datasets : Nat
deriving DecidableEq, Repr

/-- One `extra_gene_synonyms` row. -/
structure ExtraSynRow where
  central_gene_id : Nat
  synonym : String
deriving DecidableEq, Repr

/-- One `extra_mouse_symbols` row. -/
structure ExtraMouseRow where
  central_gene_id : Nat
  symbol : String
deriving DecidableEq, Repr

/-- The part of the store all-genes reads. -/
structure AllGenesDb where
  centralGenes : List CentralGeneRow
  extraGeneSynonyms : List ExtraSynRow
  extraMouseSymbols : List ExtraMouseRow
deriving DecidableEq, Repr

/-- `LOWER(col) LIKE 'q%'` on a nullable column: NULL never matches. -/
def optLikeStart (o : Option String) (q : String) : Bool :=
  match o with
  | none => false
  | some s => sqlLikeStart s q

/-- The WHERE clause all-genes composes: the optional prefix filter over
symbols, extra synonyms and extra mouse symbols, always conjoined with
`cg.num_datasets > 0`. -/
def agFilterPred (db : AllGenesDb) (q : String) (cg : CentralGeneRow) : Bool :=
  (decide (q.length = 0) ||
    (optLikeStart cg.human_symbol q || optLikeStart cg.mouse_symbols q ||
      db.extraGeneSynonyms.any
        (fun s => decide (s.central_gene_id = cg.id) && sqlLikeStart s.synonym q) ||
      db.extraMouseSymbols.any
        (fun s => decide (s.central_gene_id = cg.id) && sqlLikeStart s.symbol q))) &&
  decide (0 < cg.num_datasets)

/-- Ordering on nullable strings with SQL NULLs first. -/
def optStrLe (a b : Option String) : Bool :=
  match a, b with
  | none, _ => true
  | some _, none => false
  | some x, some y => decide (x ≤ y)

/-- `ORDER BY cg.num_datasets DESC, cg.human_symbol ASC, cg.mouse_symbols ASC`. -/
def cgRowLe (a b : CentralGeneRow) : Bool :=
  if a.num_datasets = b.num_datasets then
    if a.human_symbol = b.human_symbol then optStrLe a.mouse_symbols b.mouse_symbols
    else optStrLe a.human_symbol b.human_symbol
  else decide (b.num_datasets < a.num_datasets)

/-- `mouse_symbols ? mouse_symbols.split(",").filter(Boolean) : null`. -/
def splitOrNull (o : Option String) : Option (List String) :=
  if jsTruthy o then some ((jsSplit (Char.ofNat 44) (o.getD "")).filter (fun x => x ≠ ""))
  else none

/-- A `SearchSuggestion`-shaped gene entry of the all-genes response. -/
structure AgGene where
  centralGeneId : Nat
  humanSymbol : Option String
  mouseSymbols : Option (List String)
  humanSynonyms : Option (List String)
  mouseSynonyms : Option (List String)
  datasetCount : Nat
deriving DecidableEq, Repr

/-- The all-genes JSON response (fields this development reasons about). -/
structure AgResponse where
  status : Nat
  genes : List AgGene
  page : JsNum
  pageSize : JsNum
  total : Nat
  totalPages : JsNum
  query : String
deriving DecidableEq, Repr

/-- `Math.max(1, parseInt((req.query.page as string) || "1", 10))`. -/
def effPage (q : Option String) : JsNum :=
  jsMaxConst 1 (parseIntJs (jsOrString q "1"))

/-- `Math.min(200, Math.max(1, parseInt((req.query.pageSize as string) || "50", 10)))`. -/
def effPageSize (q : Option String) : JsNum :=
  jsMinConst 200 (jsMaxConst 1 (parseIntJs (jsOrString q "50")))

/-- The row-to-gene mapping of all-genes. -/
def mkAgGene (r : CentralGeneRow) : AgGene :=
  { centralGeneId := r.id,
    humanSymbol := r.human_symbol,
    mouseSymbols := splitOrNull r.mouse_symbols,
    humanSynonyms := splitOrNull r.human_synonyms,
    mouseSynonyms := splitOrNull r.mouse_synonyms,
    datasetCount := r.num_datasets }

/-- The all-genes handler.  When `page` or `pageSize` is NaN the bound
LIMIT/OFFSET parameters are not numbers; that path is modelled as the
catch branch (HTTP 500, no genes). -/
def allGenesHandler (db : AllGenesDb) (method : String)
    (pageQ pageSizeQ qQ : Option String) : AgResponse :=
  if method ≠ "GET" then
    { status := 405, genes := [], page := none, pageSize := none,
      total := 0, totalPages := none, query := "" }
  else
    let page := effPage pageQ
    let pageSize := effPageSize pageSizeQ
    let qRaw := jsTrim (jsOrString qQ "")
    let q := jsToLower qRaw
    let filtered := (db.centralGenes).filter (agFilterPred db q)
    let total := filtered.length
    match page, pageSize with
    | some pg, some ps =>
      let totalPages := max 1 ((total + ps.toNat - 1) / ps.toNat)
      let offset := (pg - 1) * ps
      let rows := ((sortByLe cgRowLe filtered).drop offset.toNat).take ps.toNat
      { status := 200, genes := rows.map mkAgGene, page := some pg, pageSize := some ps,
        total := total, totalPages := some (totalPages : Int), query := qRaw }
    | _, _ =>
      { status := 500, genes := [], page := page, pageSize := pageSize,
        total := 0, totalPages := none, query := qRaw }

/-- C10, counterexample: with `pageSize=abc` (or `page=abc`) `parseInt`
returns NaN, which `Math.max`/`Math.min` propagate, so the effective
pageSize is NaN — not a number between 1 and 200 — and the effective
page is NaN — not a number at least 1. -/
theorem C10_counterexample :
    effPageSize (some "abc") = none ∧ effPage (some "abc") = none ∧
    ¬∃ n : Int, effPageSize (some "abc") = some n ∧ 1 ≤ n ∧ n ≤ 200 := by
  refine ⟨by decide, by decide, ?_⟩
  rintro ⟨n, hn, -⟩
  rw [show effPageSize (some "abc") = none from by decide] at hn
  cases hn

/-- C10 (amended): whenever the `page` and `pageSize` query parameters
parse to numbers (parseInt not NaN), the effective pageSize lies between
1 and 200, the effective page is at least 1, `totalPages` equals
`max 1 ⌈total / pageSize⌉`, the returned genes array has length at most
pageSize, and every returned gene has `dataset_count > 0`; a
non-numeric parameter yields NaN instead, which propagates. -/
theorem C10_all_genes_bounds (db : AllGenesDb) (pageQ pageSizeQ qQ : Option String)
    (pg ps : Int)
    (hpg : effPage pageQ = some pg) (hps : effPageSize pageSizeQ = some ps) :
    1 ≤ pg ∧ 1 ≤ ps ∧ ps ≤ 200 ∧
    (allGenesHandler db "GET" pageQ pageSizeQ qQ).totalPages =
      some (((max 1 (((allGenesHandler db "GET" pageQ pageSizeQ qQ).total + ps.toNat - 1) /
        ps.toNat)) : Nat) : Int) ∧
    (allGenesHandler db "GET" pageQ pageSizeQ qQ).genes.length ≤ ps.toNat ∧
    (∀ g ∈ (allGenesHandler db "GET" pageQ pageSizeQ qQ).genes, 0 < g.datasetCount) := by
  have hpg1 : 1 ≤ pg := by
    unfold effPage jsMaxConst at hpg
    cases hq : parseIntJs (jsOrString pageQ "1") with
    | none => rw [hq] at hpg; cases hpg
    | some v =>
      rw [hq] at hpg
      injection hpg with hpg
      rw [← hpg]
      exact le_max_left 1 v
  have hps1 : 1 ≤ ps ∧ ps ≤ 200 := by
    unfold effPageSize jsMaxConst jsMinConst at hps
    cases hq : parseIntJs (jsOrString pageSizeQ "50") with
    | none => rw [hq] at hps; cases hps
    | some v =>
      rw [hq] at hps
      injection hps with hps
      rw [← hps]
      constructor
      · exact le_min (by norm_num) (le_max_left 1 v)
      · exact min_le_left 200 _
  have hresp : allGenesHandler db "GET" pageQ pageSizeQ qQ =
      (let filtered := (db.centralGenes).filter
        (agFilterPred db (jsToLower (jsTrim (jsOrString qQ ""))))
      { status := 200,
        genes := (((sortByLe cgRowLe filtered).drop ((pg - 1) * ps).toNat).take ps.toNat).map
          mkAgGene,
        page := some pg, pageSize := some ps, total := filtered.length,
        totalPages := some ((max 1 ((filtered.length + ps.toNat - 1) / ps.toNat) : Nat) : Int),
        query := jsTrim (jsOrString qQ "") }) := by
    unfold allGenesHandler
    simp only [hpg, hps]
    rw [if_neg (by simp)]
  refine ⟨hpg1, hps1.1, hps1.2, ?_, ?_, ?_⟩
  · rw [hresp]
  · rw [hresp]
    simp only [List.length_map]
    exact le_trans (List.length_take_le _ _) (le_refl _)
  · intro g hg
    rw [hresp] at hg
    simp only [List.mem_map] at hg
    obtain ⟨r, hr, hgr⟩ := hg
    have hrf : r ∈ (db.centralGenes).filter
        (agFilterPred db (jsToLower (jsTrim (jsOrString qQ "")))) := by
      have h1 := List.mem_of_mem_take hr
      have h2 := List.mem_of_mem_drop h1
      exact (mem_sortByLe _ _ _).mp h2
    have hpred := List.of_mem_filter hrf
    unfold agFilterPred at hpred
    have hnum : 0 < r.num_datasets := by
      have := (Bool.and_eq_true _ _).mp hpred
      exact of_decide_eq_true this.2
    rw [← hgr]
    exact hnum

def c10wdb : AllGenesDb :=
  { centralGenes := [{ id := 1, human_symbol := some "SATB2", mouse_symbols := some "Satb2",
                       human_synonyms := none, mouse_synonyms := none, num_datasets := 2 },
                     { id := 2, human_symbol := some "GRIN2B", mouse_symbols := none,
                       human_synonyms := none, mouse_synonyms := none, num_datasets := 0 }],
    extraGeneSynonyms := [], extraMouseSymbols := [] }

/-- C10, witness: the amended bounds evaluated at a concrete store with an
oversized pageSize parameter that clamps to 200. -/
theorem C10_witness :
    (effPage (some "3") = some 3 ∧ effPageSize (some "500") = some 200) ∧
    (1 ≤ (3 : Int) ∧ 1 ≤ (200 : Int) ∧ (200 : Int) ≤ 200 ∧
     (allGenesHandler c10wdb "GET" (some "3") (some "500") none).totalPages =
       some (((max 1 (((allGenesHandler c10wdb "GET" (some "3") (some "500") none).total +
         (200 : Int).toNat - 1) / (200 : Int).toNat)) : Nat) : Int) ∧
     (allGenesHandler c10wdb "GET" (some "3") (some "500") none).genes.length ≤ (200 : Int).toNat ∧
     (∀ g ∈ (allGenesHandler c10wdb "GET" (some "3") (some "500") none).genes,
        0 < g.datasetCount)) :=
  ⟨⟨by decide, by decide⟩,
   C10_all_genes_bounds c10wdb (some "3") (some "500") none 3 200 (by decide) (by decide)⟩

/-! ### The two all-genes implementations of `src/unnamed/part_003`

The first document scans every link table named in
`data_tables.link_tables` and counts distinct base-table names per gene;
the second reads `central_gene.num_datasets` directly. -/

/-- One `synonyms` row (second document's filter). -/
structure SynRow where
  central_gene_id : Nat
  synonym : String
deriving DecidableEq, Repr

/-- One `data_tables` row as the scanning variant reads it. -/
structure P3DtRow where
  table_name : String
  link_tables : Option String
deriving DecidableEq, Repr

/-- The store state both part_003 handlers run against.  `linkContents`
maps a physical link-table name to its `entrez_gene` column values
(`none`: the table does not exist and a SELECT on it throws). -/
structure P3Db where
  human : List SpeciesGeneRow
  mouse : List SpeciesGeneRow
  zebrafish : List SpeciesGeneRow
  dataTables : List P3DtRow
  linkContents : String → Option (List Nat)
  centralGenes : List CentralGeneRow
  synonyms : List SynRow

/-- Substring test over char lists. -/
def hasInfix (p : List Char) : List Char → Bool
  | [] => p.isPrefixOf []
  | c :: t => p.isPrefixOf (c :: t) || hasInfix p t

/-- `name LIKE '%q%'` — case-insensitive containment. -/
def sqlLikeContains (name q : String) : Bool :=
  hasInfix (jsToLower q).toList (jsToLower name).toList

/-- A row of the UNION query across the three species tables. -/
structure UnionGeneRow where
  entrezId : Nat
  name : String
  species : String
deriving DecidableEq, Repr

/-- One branch of the UNION:
`SELECT entrez_id, name, '<sp>' FROM <sp>_entrez_gene WHERE is_symbol = 1 [AND name LIKE ?]`. -/
def unionSpecies (rows : List SpeciesGeneRow) (species : String) (q : String) :
    List UnionGeneRow :=
  (rows.filter (fun r =>
      decide (r.is_symbol = 1) && (decide (q.length = 0) || sqlLikeContains r.name q))).map
    (fun r => { entrezId := r.entrez_id, name := r.name, species := species })

/-- The per-gene record held in the scanning variant's `idToInfo` map. -/
structure GeneInfo where
  name : String
  species : String
  datasetCount : Nat
  datasets : List String
deriving DecidableEq, Repr

/-- The JS `Map<number, GeneInfo>`: insertion-ordered keys plus contents. -/
structure IdMap where
  keys : List Nat
  val : Nat → Option GeneInfo

/-- `Map.set`: update in place, or append a new key. -/
def mapSet (k : Nat) (v : GeneInfo) (m : IdMap) : IdMap :=
  { keys := if (m.val k).isSome then m.keys else m.keys ++ [k],
    val := fun j => if j = k then some v else m.val j }

/-- The initial `idToInfo` built from the UNION's rows. -/
def initMap (allGenes : List UnionGeneRow) : IdMap :=
  allGenes.foldl
    (fun m g => mapSet g.entrezId
      { name := g.name, species := g.species, datasetCount := 0, datasets := [] } m)
    { keys := [], val := fun _ => none }

/-- The loop body over one returned `entrez_gene` value: add the table
name to the gene's dataset set and bump the count unless already there. -/
def updateGene (tname : String) (r : Nat) (m : IdMap) : IdMap :=
  match m.val r with
  | none => m
  | some info =>
    if tname ∈ info.datasets then m
    else
      mapSet r { info with
                  datasets := info.datasets ++ [tname],
                  datasetCount := info.datasetCount + 1 } m

/-- Process the distinct gene ids one chunk query returned. -/
def processRows (tname : String) (rows : List Nat) (m : IdMap) : IdMap :=
  rows.foldl (fun acc r => updateGene tname r acc) m

/-- Fuel-indexed chunking loop (the fuel is an upper bound on the number
of iterations; one element is always consumed, so `l.length` suffices). -/
def chunksOfAux : Nat → List Nat → List (List Nat)
  | _, [] => []
  | 0, l => [l]
  | fuel + 1, x :: xs => (x :: xs.take 799) :: chunksOfAux fuel (xs.drop 799)

/-- `allIds` sliced into chunks of 800 "to respect SQLite parameter limits". -/
def chunksOf (l : List Nat) : List (List Nat) :=
  chunksOfAux l.length l

/-- Scan one link table: `SELECT DISTINCT entrez_gene FROM lt WHERE
entrez_gene IN (chunk)` per chunk; a missing table throws and the
try/catch skips the whole link table. -/
def processLinkTable (db : P3Db) (tname : String) (allIds : List Nat) (lt : String)
    (m : IdMap) : IdMap :=
  match db.linkContents lt with
  | none => m
  | some contents =>
    (chunksOf allIds).foldl
      (fun acc chunk => processRows tname ((contents.filter (fun v => v ∈ chunk)).dedup) acc) m

/-- Scan all link tables of one `data_tables` row (`!table.link_tables`
skips null and empty encodings). -/
def processTable (db : P3Db) (allIds : List Nat) (m : IdMap) (t : P3DtRow) : IdMap :=
  match t.link_tables with
  | none => m
  | some s =>
    if s = "" then m
    else (agLinkNames s).foldl
      (fun acc lt => processLinkTable db t.table_name allIds lt acc) m

/-- The full dataset-count scan. -/
def scanCounts (db : P3Db) (allGenes : List UnionGeneRow) : IdMap :=
  let m0 := initMap allGenes
  let allIds := allGenes.map (fun g => g.entrezId)
  if 0 < allIds.length then db.dataTables.foldl (processTable db allIds) m0 else m0

/-- An element of the scanning variant's `genes` array. -/
structure ScanGene where
  entrezId : Nat
  name : String
  species : String
  datasetCount : Nat
deriving DecidableEq, Repr

/-- `sort((a, b) => b.datasetCount - a.datasetCount || localeCompare)`. -/
def scanLe (a b : ScanGene) : Bool :=
  if a.datasetCount = b.datasetCount then decide (a.name ≤ b.name)
  else decide (b.datasetCount < a.datasetCount)

/-- `Array.from(idToInfo.entries())`. -/
def mapEntries (m : IdMap) : List (Nat × GeneInfo) :=
  m.keys.filterMap (fun k => (m.val k).map (fun i => (k, i)))

/-- Build, filter to genes with at least one dataset, sort. -/
def scanSorted (m : IdMap) : List ScanGene :=
  sortByLe scanLe
    (((mapEntries m).map (fun p =>
        { entrezId := p.1, name := p.2.name, species := p.2.species,
          datasetCount := p.2.datasetCount })).filter (fun g => 0 < g.datasetCount))

/-- The scanning variant's response. -/
structure ScanResponse where
  status : Nat
  genes : List ScanGene
  page : JsNum
  pageSize : JsNum
  total : Nat
  totalPages : JsNum
  query : String
deriving DecidableEq, Repr

/-- `Math.ceil(total / pageSize)` over a possibly-NaN page size (the
effective page size, when a number, is at least 1). -/
def jsCeilDivNat (total : Nat) (ps : JsNum) : JsNum :=
  match ps with
  | none => none
  | some p => some (((total + p.toNat - 1) / p.toNat : Nat) : Int)

/-- The scanning all-genes handler (first document of part_003). -/
def scanHandler (db : P3Db) (method : String) (pageQ pageSizeQ qQ : Option String) :
    ScanResponse :=
  if method ≠ "GET" then
    { status := 405, genes := [], page := none, pageSize := none,
      total := 0, totalPages := none, query := "" }
  else
    let page := effPage pageQ
    let pageSize := effPageSize pageSizeQ
    let q := jsTrim (jsOrString qQ "")
    let allGenes := unionSpecies db.human "human" q ++ unionSpecies db.mouse "mouse" q ++
      unionSpecies db.zebrafish "zebrafish" q
    let sorted := scanSorted (scanCounts db allGenes)
    let total := sorted.length
    let totalPages := jsMaxConst 1 (jsCeilDivNat total pageSize)
    let start := jsMulNum (jsSubNum page (some 1)) pageSize
    { status := 200, genes := jsSlice sorted start (jsAddNum start pageSize),
      page := page, pageSize := pageSize, total := total, totalPages := totalPages,
      query := q }

/-- The WHERE clause of the `num_datasets` variant: optional prefix match
over symbols and the `synonyms` table, always `cg.num_datasets > 0`. -/
def p3FilterPred (db : P3Db) (q : String) (cg : CentralGeneRow) : Bool :=
  (decide (q.length = 0) ||
    (optLikeStart cg.human_symbol q || optLikeStart cg.mouse_symbols q ||
      db.synonyms.any (fun s => decide (s.central_gene_id = cg.id) && sqlLikeStart s.synonym q))) &&
  decide (0 < cg.num_datasets)

/-- `COALESCE(cg.human_symbol, cg.mouse_symbols, CAST(cg.id AS TEXT))`. -/
def coalesceName (cg : CentralGeneRow) : String :=
  match cg.human_symbol with
  | some s => s
  | none =>
    match cg.mouse_symbols with
    | some s => s
    | none => toString cg.id

/-- The CASE expression computing the species label. -/
def caseSpecies (cg : CentralGeneRow) : String :=
  if cg.human_symbol.isSome ∧ cg.mouse_symbols.isSome then "human/mouse"
  else if cg.human_symbol.isSome then "human"
  else if cg.mouse_symbols.isSome then "mouse"
  else "unknown"

/-- An element of the `num_datasets` variant's `genes` array. -/
structure CgGene where
  entrezId : Nat
  name : String
  species : String
  datasetCount : Nat
deriving DecidableEq, Repr

/-- The SELECT's row mapping. -/
def mkCgGene (cg : CentralGeneRow) : CgGene :=
  { entrezId := cg.id, name := coalesceName cg, species := caseSpecies cg,
    datasetCount := cg.num_datasets }

/-- `ORDER BY cg.num_datasets DESC, name ASC` (name is the COALESCE alias). -/
def cgGeneLe (a b : CgGene) : Bool :=
  if a.datasetCount = b.datasetCount then decide (a.name ≤ b.name)
  else decide (b.datasetCount < a.datasetCount)

/-- The `num_datasets` variant's response. -/
structure CgResponse where
  status : Nat
  genes : List CgGene
  page : JsNum
  pageSize : JsNum
  total : Nat
  totalPages : JsNum
  query : String
deriving DecidableEq, Repr

/-- The `num_datasets` all-genes handler (second document of part_003).
NaN page parameters are modelled as the catch branch (HTTP 500). -/
def cgHandler (db : P3Db) (method : String) (pageQ pageSizeQ qQ : Option String) :
    CgResponse :=
  if method ≠ "GET" then
    { status := 405, genes := [], page := none, pageSize := none,
      total := 0, totalPages := none, query := "" }
  else
    let page := effPage pageQ
    let pageSize := effPageSize pageSizeQ
    let qRaw := jsTrim (jsOrString qQ "")
    let q := jsToLower qRaw
    let filtered := db.centralGenes.filter (p3FilterPred db q)
    let total := filtered.length
    match page, pageSize with
    | some pg, some ps =>
      { status := 200,
        genes := ((sortByLe cgGeneLe (filtered.map mkCgGene)).drop ((pg - 1) * ps).toNat).take
          ps.toNat,
        page := some pg, pageSize := some ps, total := total,
        totalPages := some ((max 1 ((total + ps.toNat - 1) / ps.toNat) : Nat) : Int),
        query := qRaw }
    | _, _ =>
      { status := 500, genes := [], page := page, pageSize := pageSize,
        total := 0, totalPages := none, query := qRaw }

/-- Refinement-spec side (from the claim's words): whether a
`data_tables` row's link tables contain at least one row referencing
gene `g`. -/
def tableReferences (db : P3Db) (t : P3DtRow) (g : Nat) : Bool :=
  (agLinkNames (jsOrString t.link_tables "")).any
    (fun lt => decide (g ∈ (db.linkContents lt).getD []))

/-- Refinement-spec side (from the claim's words): the number of distinct
`data_tables` table names whose link tables contain at least one row
referencing gene `g`. -/
def specDatasetCount (db : P3Db) (g : Nat) : Nat :=
  (((db.dataTables.filter (fun t => tableReferences db t g)).map
      (fun t => t.table_name)).dedup).length

/-! ### Claim C3: the scan computes the spec's distinct-table count -/

/-- One abstract "add `tname` to the dataset set if `b`" step; the scan's
per-row update is this step pointwise. -/
def addName (tname : String) (b : Bool) (info : GeneInfo) : GeneInfo :=
  if b = true ∧ tname ∉ info.datasets then
    { info with datasets := info.datasets ++ [tname],
                datasetCount := info.datasetCount + 1 }
  else info

theorem addName_false (tname : String) (info : GeneInfo) :
    addName tname false info = info := by
  unfold addName
  rw [if_neg]
  rintro ⟨h, -⟩
  cases h

theorem map_addName_false (tname : String) (o : Option GeneInfo) :
    o.map (addName tname false) = o := by
  cases o <;> simp [addName_false]

theorem addName_mem (tname : String) (info : GeneInfo)
    (hmem : tname ∈ info.datasets) (b : Bool) : addName tname b info = info := by
  unfold addName
  rw [if_neg]
  rintro ⟨-, h⟩
  exact h hmem

theorem addName_comp (tname : String) (b₁ b₂ : Bool) (info : GeneInfo) :
    addName tname b₂ (addName tname b₁ info) = addName tname (b₁ || b₂) info := by
  by_cases hmem : tname ∈ info.datasets
  · rw [addName_mem _ _ hmem, addName_mem _ _ hmem, addName_mem _ _ hmem]
  · cases b₁
    · rw [addName_false, Bool.false_or]
    · have h1 : addName tname true info =
          { info with datasets := info.datasets ++ [tname],
                      datasetCount := info.datasetCount + 1 } := by
        unfold addName
        rw [if_pos ⟨rfl, hmem⟩]
      rw [h1, Bool.true_or]
      unfold addName
      rw [if_neg (by rintro ⟨-, h⟩; exact h (by simp))]
      rw [if_pos ⟨rfl, hmem⟩]

theorem mapSet_val (k : Nat) (v : GeneInfo) (m : IdMap) (j : Nat) :
    (mapSet k v m).val j = if j = k then some v else m.val j := rfl

theorem updateGene_val (tname : String) (r : Nat) (m : IdMap) (j : Nat) :
    (updateGene tname r m).val j =
      if j = r then (m.val j).map (addName tname true) else m.val j := by
  unfold updateGene
  split
  · rename_i h
    by_cases hj : j = r
    · subst hj
      rw [if_pos rfl, h]
      rfl
    · rw [if_neg hj]
  · rename_i info h
    split
    · rename_i hmem
      by_cases hj : j = r
      · subst hj
        rw [if_pos rfl, h]
        show some info = some (addName tname true info)
        rw [addName_mem _ _ hmem]
      · rw [if_neg hj]
    · rename_i hmem
      rw [mapSet_val]
      by_cases hj : j = r
      · subst hj
        rw [if_pos rfl, if_pos rfl, h]
        show _ = some (addName tname true info)
        unfold addName
        rw [if_pos ⟨rfl, hmem⟩]
      · rw [if_neg hj, if_neg hj]

theorem processRows_val (tname : String) :
    ∀ (rows : List Nat) (m : IdMap) (j : Nat),
      (processRows tname rows m).val j =
        (m.val j).map (addName tname (decide (j ∈ rows))) := by
  intro rows
  induction rows with
  | nil =>
    intro m j
    show m.val j = _
    rw [show decide (j ∈ ([] : List Nat)) = false by simp, map_addName_false]
  | cons r rest ih =>
    intro m j
    show (processRows tname rest (updateGene tname r m)).val j = _
    rw [ih, updateGene_val]
    by_cases hj : j = r
    · rw [if_pos hj]
      cases hv : m.val j with
      | none => rfl
      | some info =>
        show some (addName tname (decide (j ∈ rest)) (addName tname true info)) = _
        rw [addName_comp]
        have : (true || decide (j ∈ rest)) = decide (j ∈ r :: rest) := by
          simp [hj]
        rw [this]
        rfl
    · rw [if_neg hj]
      have : decide (j ∈ rest) = decide (j ∈ r :: rest) := by
        simp [List.mem_cons, hj]
      rw [this]

theorem foldl_processRows_val (tname : String) {α : Type} (f : α → List Nat) :
    ∀ (l : List α) (m : IdMap) (j : Nat),
      ((l.foldl (fun acc a => processRows tname (f a) acc) m).val j) =
        (m.val j).map (addName tname (decide (∃ a ∈ l, j ∈ f a))) := by
  intro l
  induction l with
  | nil =>
    intro m j
    show m.val j = _
    rw [show decide (∃ a ∈ ([] : List α), j ∈ f a) = false by simp, map_addName_false]
  | cons a rest ih =>
    intro m j
    show ((rest.foldl _ (processRows tname (f a) m)).val j) = _
    rw [ih, processRows_val]
    cases hv : m.val j with
    | none => rfl
    | some info =>
      show some (addName tname _ (addName tname _ info)) = _
      rw [addName_comp]
      have hiff : (j ∈ f a ∨ ∃ x ∈ rest, j ∈ f x) ↔ (∃ x ∈ a :: rest, j ∈ f x) := by
        constructor
        · rintro (h | ⟨x, hx, hj2⟩)
          · exact ⟨a, List.mem_cons_self _ _, h⟩
          · exact ⟨x, List.mem_cons_of_mem _ hx, hj2⟩
        · rintro ⟨x, hx, hj2⟩
          rcases List.mem_cons.mp hx with rfl | hx2
          · exact Or.inl hj2
          · exact Or.inr ⟨x, hx2, hj2⟩
      have : (decide (j ∈ f a) || decide (∃ x ∈ rest, j ∈ f x)) =
          decide (∃ x ∈ a :: rest, j ∈ f x) := by
        by_cases h1 : j ∈ f a
        · simp [h1, hiff.mp (Or.inl h1)]
        · by_cases h2 : ∃ x ∈ rest, j ∈ f x
          · simp [h1, h2, hiff.mp (Or.inr h2)]
          · have h3 : ¬∃ x ∈ a :: rest, j ∈ f x := fun hc =>
              ((hiff.mpr hc).elim h1 (fun hh => h2 hh))
            simp [h1, h2, h3]
      rw [this]
      rfl

theorem mem_chunksOfAux (j : Nat) :
    ∀ (fuel : Nat) (l : List Nat), l.length ≤ fuel →
      ((∃ c ∈ chunksOfAux fuel l, j ∈ c) ↔ j ∈ l) := by
  intro fuel
  induction fuel with
  | zero =>
    intro l hl
    have : l = [] := List.length_eq_zero.mp (Nat.le_zero.mp hl)
    subst this
    simp [chunksOfAux]
  | succ fuel ih =>
    intro l hl
    cases l with
    | nil => simp [chunksOfAux]
    | cons x xs =>
      have hrec := ih (xs.drop 799) (by
        have := List.length_drop 799 xs
        simp only [List.length_cons] at hl
        omega)
      show (∃ c ∈ (x :: xs.take 799) :: chunksOfAux fuel (xs.drop 799), j ∈ c) ↔ _
      constructor
      · rintro ⟨c, hc, hj⟩
        rcases List.mem_cons.mp hc with rfl | hc2
        · rcases List.mem_cons.mp hj with rfl | hj2
          · exact List.mem_cons_self _ _
          · exact List.mem_cons_of_mem _ (List.mem_of_mem_take hj2)
        · exact List.mem_cons_of_mem _ (List.mem_of_mem_drop (hrec.mp ⟨c, hc2, hj⟩))
      · intro hj
        rcases List.mem_cons.mp hj with rfl | hj2
        · exact ⟨_, List.mem_cons_self _ _, List.mem_cons_self _ _⟩
        · by_cases hjt : j ∈ xs.take 799
          · exact ⟨_, List.mem_cons_self _ _, List.mem_cons_of_mem _ hjt⟩
          · have hjd : j ∈ xs.drop 799 := by
              have hsplit : j ∈ xs.take 799 ++ xs.drop 799 := by
                rw [List.take_append_drop]
                exact hj2
              rcases List.mem_append.mp hsplit with h | h
              · exact absurd h hjt
              · exact h
            obtain ⟨c, hc, hjc⟩ := hrec.mpr hjd
            exact ⟨c, List.mem_cons_of_mem _ hc, hjc⟩

theorem mem_chunksOf (j : Nat) (l : List Nat) :
    (∃ c ∈ chunksOf l, j ∈ c) ↔ j ∈ l :=
  mem_chunksOfAux j l.length l (le_refl _)

theorem processLinkTable_val (db : P3Db) (tname : String) (allIds : List Nat)
    (lt : String) (m : IdMap) (j : Nat) :
    (processLinkTable db tname allIds lt m).val j =
      (m.val j).map (addName tname
        (decide (j ∈ (db.linkContents lt).getD []) && decide (j ∈ allIds))) := by
  unfold processLinkTable
  cases hc : db.linkContents lt with
  | none =>
    show m.val j = _
    rw [show ((decide (j ∈ (Option.getD (none : Option (List Nat)) []))) &&
        decide (j ∈ allIds)) = false by simp]
    rw [map_addName_false]
  | some contents =>
    show ((chunksOf allIds).foldl
      (fun acc chunk => processRows tname ((contents.filter (fun v => decide (v ∈ chunk))).dedup) acc) m).val j = _
    rw [foldl_processRows_val tname
      (fun chunk => (contents.filter (fun v => decide (v ∈ chunk))).dedup)]
    have hiff : (∃ c ∈ chunksOf allIds, j ∈ (contents.filter (fun v => decide (v ∈ c))).dedup) ↔
        (j ∈ contents ∧ j ∈ allIds) := by
      constructor
      · rintro ⟨c, hc, hj⟩
        rw [List.mem_dedup, List.mem_filter] at hj
        exact ⟨hj.1, (mem_chunksOf j allIds).mp ⟨c, hc, of_decide_eq_true hj.2⟩⟩
      · rintro ⟨hjc, hja⟩
        obtain ⟨c, hc, hj⟩ := (mem_chunksOf j allIds).mpr hja
        refine ⟨c, hc, ?_⟩
        rw [List.mem_dedup, List.mem_filter]
        exact ⟨hjc, decide_eq_true hj⟩
    have heq : decide (∃ c ∈ chunksOf allIds, j ∈ (contents.filter (fun v => decide (v ∈ c))).dedup) =
        (decide (j ∈ (Option.getD (some contents) [])) && decide (j ∈ allIds)) := by
      show _ = (decide (j ∈ contents) && decide (j ∈ allIds))
      by_cases h1 : j ∈ contents
      · by_cases h2 : j ∈ allIds
        · rw [decide_eq_true (hiff.mpr ⟨h1, h2⟩)]
          simp [h1, h2]
        · have h3 : ¬(∃ c ∈ chunksOf allIds,
              j ∈ (contents.filter (fun v => decide (v ∈ c))).dedup) :=
            fun hcon => h2 (hiff.mp hcon).2
          rw [decide_eq_false h3]
          simp [h2]
      · have h3 : ¬(∃ c ∈ chunksOf allIds,
            j ∈ (contents.filter (fun v => decide (v ∈ c))).dedup) :=
          fun hcon => h1 (hiff.mp hcon).1
        rw [decide_eq_false h3]
        simp [h1]
    rw [heq]

theorem foldl_processLinkTable_val (db : P3Db) (tname : String) (allIds : List Nat) :
    ∀ (lts : List String) (m : IdMap) (j : Nat),
      ((lts.foldl (fun acc lt => processLinkTable db tname allIds lt acc) m).val j) =
        (m.val j).map (addName tname
          ((lts.any (fun lt => decide (j ∈ (db.linkContents lt).getD []))) &&
            decide (j ∈ allIds))) := by
  intro lts
  induction lts with
  | nil =>
    intro m j
    show m.val j = _
    rw [show ((List.any [] (fun lt => decide (j ∈ (db.linkContents lt).getD []))) &&
        decide (j ∈ allIds)) = false by simp]
    rw [map_addName_false]
  | cons lt rest ih =>
    intro m j
    show ((rest.foldl _ (processLinkTable db tname allIds lt m)).val j) = _
    rw [ih, processLinkTable_val]
    cases hv : m.val j with
    | none => rfl
    | some info =>
      show some (addName tname _ (addName tname _ info)) = _
      rw [addName_comp]
      congr 2
      rw [List.any_cons]
      cases hd : decide (j ∈ allIds)
      · simp
      · cases decide (j ∈ (db.linkContents lt).getD []) <;> simp

theorem processTable_val (db : P3Db) (allIds : List Nat) (m : IdMap) (t : P3DtRow)
    (j : Nat) :
    (processTable db allIds m t).val j =
      (m.val j).map (addName t.table_name
        (tableReferences db t j && decide (j ∈ allIds))) := by
  unfold processTable tableReferences
  cases hl : t.link_tables with
  | none =>
    show m.val j = _
    rw [show (jsOrString none "") = "" from rfl]
    rw [show agLinkNames "" = [] from rfl]
    rw [show ((List.any [] fun lt => decide (j ∈ (db.linkContents lt).getD [])) &&
        decide (j ∈ allIds)) = false by simp]
    rw [map_addName_false]
  | some s =>
    show (if s = "" then m
      else (agLinkNames s).foldl
        (fun acc lt => processLinkTable db t.table_name allIds lt acc) m).val j = _
    by_cases hs : s = ""
    · rw [if_pos hs, hs]
      show m.val j = _
      rw [show (jsOrString (some "") "") = "" from rfl]
      rw [show agLinkNames "" = [] from rfl]
      rw [show ((List.any [] fun lt => decide (j ∈ (db.linkContents lt).getD [])) &&
          decide (j ∈ allIds)) = false by simp]
      rw [map_addName_false]
    · rw [if_neg hs]
      rw [foldl_processLinkTable_val]
      rw [show jsOrString (some s) "" = s from by simp [jsOrString, hs]]

theorem scan_foldl_val (db : P3Db) (allIds : List Nat) :
    ∀ (ts : List P3DtRow) (m : IdMap) (j : Nat),
      ((ts.foldl (processTable db allIds) m).val j) =
        (m.val j).map (fun i =>
          ts.foldl (fun acc t =>
            addName t.table_name (tableReferences db t j && decide (j ∈ allIds)) acc) i) := by
  intro ts
  induction ts with
  | nil =>
    intro m j
    show m.val j = _
    cases m.val j <;> rfl
  | cons t rest ih =>
    intro m j
    show ((rest.foldl _ (processTable db allIds m t)).val j) = _
    rw [ih, processTable_val]
    cases hv : m.val j <;> rfl

theorem initFold_inv :
    ∀ (l : List UnionGeneRow) (m : IdMap) (j : Nat) (info : GeneInfo),
      ((l.foldl (fun m2 g => mapSet g.entrezId
          { name := g.name, species := g.species, datasetCount := 0, datasets := [] } m2) m).val j
        = some info) →
      (m.val j = some info) ∨
        (info.datasets = [] ∧ info.datasetCount = 0 ∧ j ∈ l.map (fun g => g.entrezId)) := by
  intro l
  induction l with
  | nil =>
    intro m j info h
    exact Or.inl h
  | cons g rest ih =>
    intro m j info h
    rcases ih _ j info h with h2 | h2
    · rw [mapSet_val] at h2
      by_cases hj : j = g.entrezId
      · rw [if_pos hj] at h2
        injection h2 with h2
        refine Or.inr ⟨?_, ?_, ?_⟩
        · rw [← h2]
        · rw [← h2]
        · rw [List.map_cons]
          rw [hj]
          exact List.mem_cons_self _ _
      · rw [if_neg hj] at h2
        exact Or.inl h2
    · exact Or.inr ⟨h2.1, h2.2.1, List.mem_cons_of_mem _ h2.2.2⟩

theorem initMap_inv (l : List UnionGeneRow) (j : Nat) (info : GeneInfo)
    (h : (initMap l).val j = some info) :
    info.datasets = [] ∧ info.datasetCount = 0 ∧ j ∈ l.map (fun g => g.entrezId) := by
  rcases initFold_inv l { keys := [], val := fun _ => none } j info h with h2 | h2
  · cases h2
  · exact h2

theorem addName_spec (tname : String) (b : Bool) (info : GeneInfo)
    (hnd : info.datasets.Nodup) (hc : info.datasetCount = info.datasets.length) :
    (addName tname b info).datasets.Nodup ∧
    (addName tname b info).datasetCount = (addName tname b info).datasets.length ∧
    (∀ x, x ∈ (addName tname b info).datasets ↔
      x ∈ info.datasets ∨ (b = true ∧ x = tname)) := by
  unfold addName
  by_cases hcond : b = true ∧ tname ∉ info.datasets
  · rw [if_pos hcond]
    refine ⟨?_, ?_, ?_⟩
    · simp only [List.nodup_append, List.nodup_singleton, true_and]
      exact ⟨hnd, by simpa using hcond.2⟩
    · simp [hc]
    · intro x
      simp only [List.mem_append, List.mem_singleton]
      constructor
      · rintro (h | h)
        · exact Or.inl h
        · exact Or.inr ⟨hcond.1, h⟩
      · rintro (h | ⟨-, h⟩)
        · exact Or.inl h
        · exact Or.inr h
  · rw [if_neg hcond]
    refine ⟨hnd, hc, fun x => ⟨Or.inl, ?_⟩⟩
    rintro (h | ⟨hb, rfl⟩)
    · exact h
    · by_cases hmem : x ∈ info.datasets
      · exact hmem
      · exact absurd ⟨hb, hmem⟩ hcond

theorem applyNames_spec (db : P3Db) (allIds : List Nat) (j : Nat) :
    ∀ (ts : List P3DtRow) (info : GeneInfo),
      info.datasets.Nodup → info.datasetCount = info.datasets.length →
      ((ts.foldl (fun acc t =>
          addName t.table_name (tableReferences db t j && decide (j ∈ allIds)) acc)
          info).datasets.Nodup ∧
       (ts.foldl (fun acc t =>
          addName t.table_name (tableReferences db t j && decide (j ∈ allIds)) acc)
          info).datasetCount =
         (ts.foldl (fun acc t =>
          addName t.table_name (tableReferences db t j && decide (j ∈ allIds)) acc)
          info).datasets.length ∧
       (∀ x, x ∈ (ts.foldl (fun acc t =>
          addName t.table_name (tableReferences db t j && decide (j ∈ allIds)) acc)
          info).datasets ↔
          x ∈ info.datasets ∨
            ∃ t ∈ ts, (tableReferences db t j && decide (j ∈ allIds)) = true ∧
              x = t.table_name)) := by
  intro ts
  induction ts with
  | nil =>
    intro info hnd hc
    refine ⟨hnd, hc, fun x => ?_⟩
    simp
  | cons t rest ih =>
    intro info hnd hc
    obtain ⟨hnd1, hc1, hmem1⟩ :=
      addName_spec t.table_name (tableReferences db t j && decide (j ∈ allIds)) info hnd hc
    obtain ⟨hnd2, hc2, hmem2⟩ := ih _ hnd1 hc1
    refine ⟨hnd2, hc2, fun x => ?_⟩
    rw [show (t :: rest).foldl (fun acc t =>
        addName t.table_name (tableReferences db t j && decide (j ∈ allIds)) acc) info =
      rest.foldl (fun acc t =>
        addName t.table_name (tableReferences db t j && decide (j ∈ allIds)) acc)
        (addName t.table_name (tableReferences db t j && decide (j ∈ allIds)) info)
      from rfl]
    rw [hmem2 x, hmem1 x]
    constructor
    · rintro ((h | ⟨hb, hx⟩) | ⟨t2, ht2, hcond, hx⟩)
      · exact Or.inl h
      · exact Or.inr ⟨t, List.mem_cons_self _ _, hb, hx⟩
      · exact Or.inr ⟨t2, List.mem_cons_of_mem _ ht2, hcond, hx⟩
    · rintro (h | ⟨t2, ht2, hcond, hx⟩)
      · exact Or.inl (Or.inl h)
      · rcases List.mem_cons.mp ht2 with rfl | ht3
        · exact Or.inl (Or.inr ⟨hcond, hx⟩)
        · exact Or.inr ⟨t2, ht3, hcond, hx⟩

theorem scan_count_eq (db : P3Db) (allIds : List Nat) (j : Nat) (info₀ : GeneInfo)
    (h0d : info₀.datasets = []) (h0c : info₀.datasetCount = 0) (hj : j ∈ allIds) :
    (db.dataTables.foldl (fun acc t =>
        addName t.table_name (tableReferences db t j && decide (j ∈ allIds)) acc)
        info₀).datasetCount = specDatasetCount db j := by
  obtain ⟨hnd, hcl, hmem⟩ := applyNames_spec db allIds j db.dataTables info₀
    (by rw [h0d]; exact List.nodup_nil) (by rw [h0c, h0d]; rfl)
  rw [hcl]
  have hmem2 : ∀ x, x ∈ (db.dataTables.foldl (fun acc t =>
      addName t.table_name (tableReferences db t j && decide (j ∈ allIds)) acc)
      info₀).datasets ↔
      x ∈ ((db.dataTables.filter (fun t => tableReferences db t j)).map
        (fun t => t.table_name)) := by
    intro x
    rw [hmem x, h0d]
    simp only [List.not_mem_nil, false_or]
    constructor
    · rintro ⟨t, ht, hcond, rfl⟩
      exact List.mem_map_of_mem _ (List.mem_filter.mpr
        ⟨ht, ((Bool.and_eq_true _ _).mp hcond).1⟩)
    · intro hx
      obtain ⟨t, htf, rfl⟩ := List.mem_map.mp hx
      obtain ⟨ht, href⟩ := List.mem_filter.mp htf
      exact ⟨t, ht, by rw [href, decide_eq_true hj]; rfl, rfl⟩
  have hfin : (db.dataTables.foldl (fun acc t =>
      addName t.table_name (tableReferences db t j && decide (j ∈ allIds)) acc)
      info₀).datasets.toFinset =
      ((db.dataTables.filter (fun t => tableReferences db t j)).map
        (fun t => t.table_name)).toFinset := by
    ext x
    simp only [List.mem_toFinset]
    exact hmem2 x
  calc (db.dataTables.foldl (fun acc t =>
        addName t.table_name (tableReferences db t j && decide (j ∈ allIds)) acc)
        info₀).datasets.length
      = (db.dataTables.foldl (fun acc t =>
        addName t.table_name (tableReferences db t j && decide (j ∈ allIds)) acc)
        info₀).datasets.toFinset.card := (List.toFinset_card_of_nodup hnd).symm
    _ = ((db.dataTables.filter (fun t => tableReferences db t j)).map
        (fun t => t.table_name)).toFinset.card := by rw [hfin]
    _ = specDatasetCount db j := List.card_toFinset _

theorem scan_gene_count (db : P3Db) (allGenes : List UnionGeneRow) (k : Nat)
    (info : GeneInfo) (h : (scanCounts db allGenes).val k = some info) :
    info.datasetCount = specDatasetCount db k := by
  unfold scanCounts at h
  by_cases hlen : 0 < (allGenes.map (fun g => g.entrezId)).length
  · rw [if_pos hlen] at h
    rw [scan_foldl_val] at h
    cases h0 : (initMap allGenes).val k with
    | none => rw [h0] at h; cases h
    | some info₀ =>
      rw [h0] at h
      injection h with h
      obtain ⟨hd0, hc0, hkmem⟩ := initMap_inv allGenes k info₀ h0
      rw [← h]
      exact scan_count_eq db _ k info₀ hd0 hc0 hkmem
  · rw [if_neg hlen] at h
    obtain ⟨-, -, hkmem⟩ := initMap_inv allGenes k info h
    exact absurd (List.length_pos.mpr (List.ne_nil_of_mem hkmem)) hlen

theorem mem_of_jsSlice {l : List α} {s e : JsNum} {x : α} (h : x ∈ jsSlice l s e) :
    x ∈ l :=
  List.mem_of_mem_take (List.mem_of_mem_drop h)

theorem scanHandler_gene_count (db : P3Db) (pageQ pageSizeQ qQ : Option String)
    (g : ScanGene) (hg : g ∈ (scanHandler db "GET" pageQ pageSizeQ qQ).genes) :
    g.datasetCount = specDatasetCount db g.entrezId := by
  unfold scanHandler at hg
  rw [if_neg (by simp)] at hg
  simp only [] at hg
  have hg2 := mem_of_jsSlice hg
  unfold scanSorted at hg2
  have hg3 := (mem_sortByLe _ _ _).mp hg2
  obtain ⟨hg4, -⟩ := List.mem_filter.mp hg3
  obtain ⟨p, hp, hgp⟩ := List.mem_map.mp hg4
  obtain ⟨k, hk, hpk⟩ := List.mem_filterMap.mp hp
  obtain ⟨i, hvi, hip⟩ := Option.map_eq_some'.mp hpk
  have hcount := scan_gene_count db _ k i hvi
  rw [← hgp, ← hip]
  exact hcount

theorem cgHandler_gene_mem (db : P3Db) (pageQ pageSizeQ qQ : Option String)
    (g : CgGene) (hg : g ∈ (cgHandler db "GET" pageQ pageSizeQ qQ).genes) :
    ∃ cg ∈ db.centralGenes, g = mkCgGene cg := by
  unfold cgHandler at hg
  rw [if_neg (by simp)] at hg
  simp only [] at hg
  split at hg
  · have h1 := List.mem_of_mem_take hg
    have h2 := List.mem_of_mem_drop h1
    have h3 := (mem_sortByLe _ _ _).mp h2
    obtain ⟨cg, hcg, hgcg⟩ := List.mem_map.mp h3
    exact ⟨cg, List.mem_of_mem_filter hcg, hgcg.symm⟩
  · cases hg

/-- C3 (confirmed): for every store state in which `central_gene.num_datasets`
equals, for each gene, the number of distinct `data_tables` table names
whose link tables contain at least one row referencing that gene, the
link-table-scanning all-genes implementation and the `num_datasets`-reading
implementation report the same `datasetCount` for every gene they both
return, under any request parameters. -/
theorem C3_all_genes_equivalent (db : P3Db)
    (H : ∀ cg ∈ db.centralGenes, cg.num_datasets = specDatasetCount db cg.id)
    (pageQ1 pageSizeQ1 qQ1 pageQ2 pageSizeQ2 qQ2 : Option String) :
    ∀ g1 ∈ (scanHandler db "GET" pageQ1 pageSizeQ1 qQ1).genes,
      ∀ g2 ∈ (cgHandler db "GET" pageQ2 pageSizeQ2 qQ2).genes,
        g1.entrezId = g2.entrezId → g1.datasetCount = g2.datasetCount := by
  intro g1 hg1 g2 hg2 heq
  obtain ⟨cg, hcgmem, rfl⟩ := cgHandler_gene_mem db _ _ _ g2 hg2
  rw [scanHandler_gene_count db _ _ _ g1 hg1, heq]
  show specDatasetCount db cg.id = cg.num_datasets
  exact (H cg hcgmem).symm

def c3wdb : P3Db :=
  { human := [{ entrez_id := 42, name := "ABC", is_symbol := 1 }],
    mouse := [], zebrafish := [],
    dataTables := [{ table_name := "t1", link_tables := some "g:lt1:1:0" }],
    linkContents := fun s => if s = "lt1" then some [42, 42, 7] else none,
    centralGenes := [{ id := 42, human_symbol := some "ABC", mouse_symbols := none,
                       human_synonyms := none, mouse_synonyms := none, num_datasets := 1 }],
    synonyms := [] }

/-- C3, witness: the equivalence applied at a concrete store satisfying
the `num_datasets` invariant, on which both handlers return the gene. -/
theorem C3_witness :
    (∀ cg ∈ c3wdb.centralGenes, cg.num_datasets = specDatasetCount c3wdb cg.id) ∧
    (∀ g1 ∈ (scanHandler c3wdb "GET" none none none).genes,
       ∀ g2 ∈ (cgHandler c3wdb "GET" none none none).genes,
         g1.entrezId = g2.entrezId → g1.datasetCount = g2.datasetCount) :=
  ⟨by decide, C3_all_genes_equivalent c3wdb (by decide) none none none none none none⟩

end Psypheno
